import Mathlib

/-!
Verification of the generic container core of the JerryBoree C project:
a doubly linked list, a key-value pair, a separate-chaining hash table,
a multi-value hash table layered on top of it, and the prime-based
table-size policy.

The C code is shallowly embedded: every C function that the claims touch
is translated to an executable Lean definition.  Nullable C pointers
(`Element`, handles returned by constructors) become `Option`-typed
values; the user-supplied callback bundle (copy / free / print / equal /
hash) becomes function-typed structure fields; `int` becomes `Int`, with
C's truncated `%` rendered as `Int.tmod`; statuses are the `e_status`
enumeration of `Defs.h`.  In-place mutation becomes explicit state
passing: each mutating operation returns the status the C function
returns together with the updated (or unchanged) structure.
-/

set_option maxHeartbeats 1000000

/-- The `e_status` enumeration from `Defs.h`, with the constructors in
source order. -/
inductive status where
  | success
  | Memory_Problem
  | Invalid_input
  | no_PhyChar
  | planet_exist
  | fail
  | Phychar_exist
  | file_read_fail
  | planet_not_exist
  | jerry_not_exist
  | failure
  | no_element
  | element_exist
  | failure_reading
deriving DecidableEq, Repr

/-- `CopyFunction` from `Defs.h`: a user copy callback.  The C version
returns a nullable `Element`, so the Lean version returns an `Option`. -/
abbrev CopyFunction (α : Type) : Type := α → Option α

/-- `FreeFunction` from `Defs.h`.  Freeing is a side effect with a status
result; the functional model keeps the status type. -/
abbrev FreeFunction (α : Type) : Type := α → status

/-- `PrintFunction` from `Defs.h`. -/
abbrev PrintFunction (α : Type) : Type := α → status

/-- `EqualFunction` from `Defs.h`.  In the C code the two `Element`
arguments may have different runtime types (an element versus a probe
key), so the Lean version takes two type parameters. -/
abbrev EqualFunction (α β : Type) : Type := α → β → Bool

/-- `TransformIntoNumberFunction` from `Defs.h`: hashes a key to a C
`int`. -/
abbrev TransformIntoNumberFunction (κ : Type) : Type := κ → Int

/-- The `for (int i = 2; i <= sqrt(number); i++)` trial-division loop of
`CheckPrimeNumber`, as structural recursion on an explicit fuel bound.
The C loop condition `i <= sqrt(number)` (with the exact C `sqrt` of an
`int` operand) is rendered as the equivalent `i * i ≤ number`; the fuel
is only a termination witness and `CheckPrimeNumber` supplies enough of
it for the loop to pass the square root, so the `0` case is never taken
on the arguments actually used. -/
def checkPrimeLoop (n : Nat) : Nat → Nat → Bool
  | 0, _ => true
  | fuel + 1, i =>
      if i * i ≤ n then
        if n % i = 0 then false else checkPrimeLoop n fuel (i + 1)
      else true

/-- `CheckPrimeNumber` from the main module: numbers at most 1 are not
prime, 2 is prime, and otherwise the result of trial division by every
integer `i` with `2 ≤ i ≤ ⌊√number⌋`. -/
def CheckPrimeNumber (number : Int) : Bool :=
  if number ≤ 1 then false
  else if number = 2 then true
  else checkPrimeLoop number.toNat number.toNat 2

/-- The `while (!isPrime) { i++; isPrime = CheckPrimeNumber(i); }` loop of
`FindBiggerPrimeNumber`, as structural recursion on an explicit fuel
bound; `start` is the first candidate tested (`number + 1` in the C code).
The fuel is only a termination witness: `FindBiggerPrimeNumber` supplies
enough fuel for the loop to reach the next prime (Bertrand's postulate),
so the `0` case is never taken on the arguments actually used. -/
def findPrimeFrom : Nat → Nat → Nat
  | 0, i => i
  | fuel + 1, i => if CheckPrimeNumber (i : Int) then i else findPrimeFrom fuel (i + 1)

/-- `FindBiggerPrimeNumber` from the main module: returns 13 for any
input below 13; otherwise increments past `number` until
`CheckPrimeNumber` succeeds. -/
def FindBiggerPrimeNumber (number : Int) : Int :=
  if number < 13 then 13
  else Int.ofNat (findPrimeFrom (number.toNat + 1) (number.toNat + 1))

/-- Spec-side predicate (from the spec's words, for the amended C1):
`m` is the smallest prime strictly greater than `N`. -/
def isSmallestPrimeStrictlyAbove (N m : Int) : Prop :=
  Nat.Prime m.toNat ∧ N < m ∧ ∀ p : Nat, Nat.Prime p → N < (p : Int) → m ≤ (p : Int)

/-- The functional state of `struct LinkedList_s`: the node chain
(`head`/`tail`/`prev`/`next`) is abstracted to the sequence of node data
in head-to-tail order, together with the `count_elements` field and the
four callbacks stored at creation.  `α` is the element type, `β` the
probe type accepted by the stored `equal` callback (in C both are the
untyped `Element`). -/
structure LinkedList_s (α β : Type) where
  copyElement : CopyFunction α
  freeElement : FreeFunction α
  printElement : PrintFunction α
  equal : EqualFunction α β
  elements : List α
  count_elements : Int

/-- The nullable `LinkedList` handle (`typedef struct LinkedList_s *`). -/
abbrev LinkedList (α β : Type) : Type := Option (LinkedList_s α β)

/-- `createLinkedList`: rejects a null callback, otherwise returns an
empty list storing the four callbacks. -/
def createLinkedList (copyFunc : Option (CopyFunction α)) (freeFunc : Option (FreeFunction α))
    (printFunc : Option (PrintFunction α)) (equalFunc : Option (EqualFunction α β)) :
    LinkedList α β :=
  match copyFunc, freeFunc, printFunc, equalFunc with
  | some cf, some ff, some pf, some ef =>
      some { copyElement := cf, freeElement := ff, printElement := pf, equal := ef,
             elements := [], count_elements := 0 }
  | _, _, _, _ => none

/-- `destroyList`: frees every node; functionally only the status is
observable. -/
def destroyList (list : LinkedList α β) : status :=
  match list with
  | none => status.Invalid_input
  | some _ => status.success

/-- `appendNode`: copies the element with the stored copy callback and
links the copy at the tail.  A failing copy is the C `Memory_Problem`
path (`createNode` returned NULL) and leaves the list unchanged.  The
`count_elements` update mirrors the two branches of the C code: an empty
list sets the count to 1, a non-empty list increments it. -/
def appendNode (list : LinkedList α β) (element : Option α) : status × LinkedList α β :=
  match list, element with
  | some l, some e =>
      match l.copyElement e with
      | none => (status.Memory_Problem, some l)
      | some c =>
          (status.success,
           some { l with elements := l.elements ++ [c],
                         count_elements := if l.elements.isEmpty then 1 else l.count_elements + 1 })
  | _, _ => (status.Invalid_input, list)

/-- Removal of the first element satisfying `eq · p`, the functional core
of the C `deleteNode` scan; `none` when no element matches. -/
def removeFirstBy (eq : EqualFunction α β) (p : β) : List α → Option (List α)
  | [] => none
  | x :: xs =>
      if eq x p then some xs
      else (removeFirstBy eq p xs).map (fun ys => x :: ys)

/-- `deleteNode`: scans head to tail and unlinks the first node whose
data satisfies the stored equal callback against the probe, decrementing
`count_elements`; `no_element` (list unchanged) when nothing matches.
The C branches for head / tail / middle / single-element relinking all
amount to deleting that one node from the sequence. -/
def deleteNode (list : LinkedList α β) (PrameterToEqual : Option β) : status × LinkedList α β :=
  match list, PrameterToEqual with
  | some l, some p =>
      match removeFirstBy l.equal p l.elements with
      | none => (status.no_element, some l)
      | some es =>
          (status.success, some { l with elements := es, count_elements := l.count_elements - 1 })
  | _, _ => (status.Invalid_input, list)

/-- `displayList`: prints every element; functionally only the status is
observable. -/
def displayList (list : LinkedList α β) : status :=
  match list with
  | none => status.Invalid_input
  | some _ => status.success

/-- `getDataByIndex` (1-based): bounds-checks the index against
`count_elements`, walks to the node and returns a copy of its data made
by the stored copy callback (NULL when the copy fails). -/
def getDataByIndex (list : LinkedList α β) (index : Int) : Option α :=
  match list with
  | none => none
  | some l =>
      if index < 1 ∨ index > l.count_elements then none
      else
        match l.elements.get? (index - 1).toNat with
        | none => none
        | some d => l.copyElement d

/-- `getLengthList`: the `count_elements` field, or -1 for a null list. -/
def getLengthList (list : LinkedList α β) : Int :=
  match list with
  | none => -1
  | some l => l.count_elements

/-- `searchByKeyInList`: returns a copy (by the stored copy callback) of
the data of the first node matching the probe, or NULL. -/
def searchByKeyInList (list : LinkedList α β) (key : Option β) : Option α :=
  match list, key with
  | some l, some k =>
      match l.elements.find? (fun x => l.equal x k) with
      | none => none
      | some x => l.copyElement x
  | _, _ => none

/-- The functional state of `struct KeyValuePair_s`: one owned key, one
owned value, and the per-side callbacks stored at creation. -/
structure KeyValuePair_s (κ ν : Type) where
  key : κ
  value : ν
  copyKey : CopyFunction κ
  copyValue : CopyFunction ν
  freeKey : FreeFunction κ
  freeValue : FreeFunction ν
  printKey : PrintFunction κ
  printValue : PrintFunction ν
  equalKey : EqualFunction κ κ

/-- The nullable `KeyValuePair` handle. -/
abbrev KeyValuePair (κ ν : Type) : Type := Option (KeyValuePair_s κ ν)

/-- `createKeyValuePair`: rejects a null key, value or callback; copies
the key then the value with the supplied copy callbacks, failing (NULL)
when either copy fails. -/
def createKeyValuePair (key : Option κ) (value : Option ν)
    (copyKey : Option (CopyFunction κ)) (freeKey : Option (FreeFunction κ))
    (printKey : Option (PrintFunction κ)) (copyValue : Option (CopyFunction ν))
    (freeValue : Option (FreeFunction ν)) (printValue : Option (PrintFunction ν))
    (equalKey : Option (EqualFunction κ κ)) : KeyValuePair κ ν :=
  match key, value, copyKey, freeKey, printKey, copyValue, freeValue, printValue, equalKey with
  | some k, some v, some ck, some fk, some pk, some cv, some fv, some pv, some ek =>
      match ck k with
      | none => none
      | some kc =>
          match cv v with
          | none => none
          | some vc =>
              some { key := kc, value := vc, copyKey := ck, copyValue := cv,
                     freeKey := fk, freeValue := fv, printKey := pk, printValue := pv,
                     equalKey := ek }
  | _, _, _, _, _, _, _, _, _ => none

/-- `destroyKeyValuePair`: frees value and key; functionally only the
status is observable. -/
def destroyKeyValuePair (kvPair : KeyValuePair κ ν) : status :=
  match kvPair with
  | none => status.Invalid_input
  | some _ => status.success

/-- `displayValue`. -/
def displayValue (kvPair : KeyValuePair κ ν) : status :=
  match kvPair with
  | none => status.Invalid_input
  | some _ => status.success

/-- `displayKey`. -/
def displayKey (kvPair : KeyValuePair κ ν) : status :=
  match kvPair with
  | none => status.Invalid_input
  | some _ => status.success

/-- `getValue`: a copy of the stored value made by the stored
`copyValue` callback, or NULL. -/
def getValue (kvPair : KeyValuePair κ ν) : Option ν :=
  match kvPair with
  | none => none
  | some p => p.copyValue p.value

/-- `getKey`: a copy of the stored key made by the stored `copyKey`
callback, or NULL. -/
def getKey (kvPair : KeyValuePair κ ν) : Option κ :=
  match kvPair with
  | none => none
  | some p => p.copyKey p.key

/-- `isEqualKey`: compares the stored key against a probe key with the
stored `equalKey` callback; false on null input. -/
def isEqualKey (kvPair : KeyValuePair κ ν) (key : Option κ) : Bool :=
  match kvPair, key with
  | some p, some k => p.equalKey p.key k
  | _, _ => false

/-- `copyKeyValuePairs` (static, `HashTable.c`): the shallow copy used as
the bucket lists' copy callback — it returns the same pair handle. -/
def copyKeyValuePairs (element : KeyValuePair_s κ ν) : Option (KeyValuePair_s κ ν) :=
  some element

/-- `PrintKeyValPair` (static, `HashTable.c`). -/
def PrintKeyValPair (_element : KeyValuePair_s κ ν) : status :=
  status.success

/-- `equalForInnerList` (static, `HashTable.c`): compares a stored pair
against a probe key via `isEqualKey`. -/
def equalForInnerList (kvp : KeyValuePair_s κ ν) (key : κ) : Bool :=
  isEqualKey (some kvp) (some key)

/-- `destroyKeyValuePairhash` (static, `HashTable.c`). -/
def destroyKeyValuePairhash (element : KeyValuePair_s κ ν) : status :=
  destroyKeyValuePair (some element)

/-- The functional state of `struct hashTable_s`: the bucket array
(`LinkedList *table`) as a list of bucket-list states, the `tableSize`
and `numberOfElements` fields, and the callbacks stored at creation.
Each bucket list stores `KeyValuePair_s` elements and is probed with raw
keys. -/
structure hashTable_s (κ ν : Type) where
  table : List (LinkedList_s (KeyValuePair_s κ ν) κ)
  tableSize : Int
  numberOfElements : Int
  transIntoNumber : TransformIntoNumberFunction κ
  copyKey : CopyFunction κ
  freeKey : FreeFunction κ
  printKey : PrintFunction κ
  copyValue : CopyFunction ν
  freeValue : FreeFunction ν
  printValue : PrintFunction ν
  equalKey : EqualFunction κ κ

/-- The nullable `hashTable` handle. -/
abbrev hashTable (κ ν : Type) : Type := Option (hashTable_s κ ν)

/-- The bucket index computation shared by `addToHashTable`,
`lookupInHashTable` and `removeFromHashTable`:
`transIntoNumber(key) % tableSize`, with C's truncated `%` (`Int.tmod`)
and no guard of any kind. -/
def hashIndex (t : hashTable_s κ ν) (key : κ) : Int :=
  Int.tmod (t.transIntoNumber key) t.tableSize

/-- The bucket list every `createHashTable` cell is initialized with:
`createLinkedList(copyKeyValuePairs, destroyKeyValuePairhash,
PrintKeyValPair, equalForInnerList)`. -/
def freshBucket (κ ν : Type) : LinkedList_s (KeyValuePair_s κ ν) κ :=
  { copyElement := copyKeyValuePairs, freeElement := destroyKeyValuePairhash,
    printElement := PrintKeyValPair, equal := equalForInnerList,
    elements := [], count_elements := 0 }

/-- Observable outcome of `createHashTable`: the returned handle plus a
resource trace — which bucket-list creations succeeded and which of
those lists were destroyed (via `destroyList`) on a cleanup path before
returning.  The trace makes the unwind behaviour of the failure path a
statable property. -/
structure CreateHashTableResult (κ ν : Type) where
  result : hashTable κ ν
  createdBuckets : List Nat
  destroyedInCleanup : List Nat

/-- `createHashTable`: rejects a null callback; otherwise allocates the
bucket array of exactly `hashNumber` cells (no validation of
`hashNumber`; a non-positive size yields an empty bucket array because
the `for` loop does not run) and initializes each cell with a fresh
bucket list.  `bucketAlloc i` models whether the `malloc` inside the
`i`-th `createLinkedList` call succeeds.  On the first failing cell the
C code frees only the bucket array and the table struct — it calls
`destroyList` on none of the previously created bucket lists — and
returns NULL. -/
def createHashTable (copyKey : Option (CopyFunction κ)) (freeKey : Option (FreeFunction κ))
    (printKey : Option (PrintFunction κ)) (copyValue : Option (CopyFunction ν))
    (freeValue : Option (FreeFunction ν)) (printValue : Option (PrintFunction ν))
    (equalKey : Option (EqualFunction κ κ))
    (transformIntoNumber : Option (TransformIntoNumberFunction κ)) (hashNumber : Int)
    (bucketAlloc : Nat → Bool) : CreateHashTableResult κ ν :=
  match copyKey, freeKey, printKey, copyValue, freeValue, printValue, equalKey,
        transformIntoNumber with
  | some ck, some fk, some pk, some cv, some fv, some pv, some ek, some tn =>
      let idxs := List.range hashNumber.toNat
      match idxs.find? (fun i => !bucketAlloc i) with
      | some i =>
          { result := none, createdBuckets := idxs.filter (fun j => j < i),
            destroyedInCleanup := [] }
      | none =>
          { result := some
              { table := idxs.map (fun _ => freshBucket κ ν), tableSize := hashNumber,
                numberOfElements := 0, transIntoNumber := tn,
                copyKey := ck, freeKey := fk, printKey := pk,
                copyValue := cv, freeValue := fv, printValue := pv, equalKey := ek },
            createdBuckets := idxs, destroyedInCleanup := [] }
  | _, _, _, _, _, _, _, _ =>
      { result := none, createdBuckets := [], destroyedInCleanup := [] }

/-- `destroyHashTable`. -/
def destroyHashTable (HashTable : hashTable κ ν) : status :=
  match HashTable with
  | none => status.Invalid_input
  | some _ => status.success

/-- `addToHashTable`: null checks, bucket index by `hashIndex`, duplicate
check by `searchByKeyInList` on the bucket list, then
`createKeyValuePair` + `appendNode`.  A bucket index outside the bucket
array (possible exactly when the preconditions of the modulo indexing
fail) is undefined behaviour in C and is modelled as the otherwise
unused `failure` status with the table unchanged. -/
def addToHashTable (HashTable : hashTable κ ν) (key : Option κ) (value : Option ν) :
    status × hashTable κ ν :=
  match HashTable, key, value with
  | some t, some k, some v =>
      let index := hashIndex t k
      if 0 ≤ index then
        match t.table.get? index.toNat with
        | none => (status.failure, some t)
        | some bucket =>
            match searchByKeyInList (some bucket) (some k) with
            | some _ => (status.element_exist, some t)
            | none =>
                match createKeyValuePair (some k) (some v) (some t.copyKey) (some t.freeKey)
                    (some t.printKey) (some t.copyValue) (some t.freeValue)
                    (some t.printValue) (some t.equalKey) with
                | none => (status.Memory_Problem, some t)
                | some pair =>
                    match appendNode (some bucket) (some pair) with
                    | (status.success, some b2) =>
                        (status.success, some { t with table := t.table.set index.toNat b2 })
                    | (status.Memory_Problem, _) => (status.Memory_Problem, some t)
                    | _ => (status.Invalid_input, some t)
      else (status.failure, some t)
  | _, _, _ => (status.Invalid_input, HashTable)

/-- `lookupInHashTable`: bucket index by `hashIndex`, first matching pair
by `searchByKeyInList`, then `getValue` (a copy of the stored value made
by the stored `copyValue` callback); NULL when absent.  An out-of-range
bucket index is undefined behaviour in C, modelled as NULL. -/
def lookupInHashTable (HashTable : hashTable κ ν) (key : Option κ) : Option ν :=
  match HashTable, key with
  | some t, some k =>
      let index := hashIndex t k
      if 0 ≤ index then
        match t.table.get? index.toNat with
        | none => none
        | some bucket =>
            match searchByKeyInList (some bucket) (some k) with
            | none => none
            | some pair => getValue (some pair)
      else none
  | _, _ => none

/-- `removeFromHashTable`: bucket index by `hashIndex`, then `deleteNode`
on the bucket list with the key as probe; maps the delete status exactly
as the C code does.  An out-of-range bucket index is undefined behaviour
in C, modelled as `failure` with the table unchanged. -/
def removeFromHashTable (HashTable : hashTable κ ν) (key : Option κ) :
    status × hashTable κ ν :=
  match HashTable, key with
  | some t, some k =>
      let index := hashIndex t k
      if 0 ≤ index then
        match t.table.get? index.toNat with
        | none => (status.failure, some t)
        | some bucket =>
            match deleteNode (some bucket) (some k) with
            | (status.no_element, _) => (status.no_element, some t)
            | (status.Invalid_input, _) => (status.Invalid_input, some t)
            | (_, some b2) =>
                (status.success, some { t with table := t.table.set index.toNat b2 })
            | (_, none) => (status.success, some t)
      else (status.failure, some t)
  | _, _ => (status.Invalid_input, HashTable)

/-- `displayHashElements`. -/
def displayHashElements (HashTable : hashTable κ ν) : status :=
  match HashTable with
  | none => status.Invalid_input
  | some _ => status.success

/-- `copyLinkListVal` (static, `MultiValueHashTable.c`): the shallow
pass-through copy used as the underlying table's value copy callback —
the value slot holds a `LinkedList` handle that is aliased, not
duplicated. -/
def copyLinkListVal (element : LinkedList_s ν ν) : Option (LinkedList_s ν ν) :=
  some element

/-- The functional state of `struct MultiHashTable_s`: the underlying
hash table, whose value type is a per-key linked list of values, plus
the caller's callbacks stored at creation. -/
structure MultiHashTable_s (κ ν : Type) where
  HashTable : hashTable_s κ (LinkedList_s ν ν)
  transIntoNumber : TransformIntoNumberFunction κ
  copyKey : CopyFunction κ
  freeKey : FreeFunction κ
  printKey : PrintFunction κ
  copyValue : CopyFunction ν
  freeValue : FreeFunction ν
  printValue : PrintFunction ν
  equalKey : EqualFunction κ κ
  equalVal : EqualFunction ν ν

/-- The nullable `multiHashTable` handle. -/
abbrev multiHashTable (κ ν : Type) : Type := Option (MultiHashTable_s κ ν)

/-- `createMultiValueHashTable`: rejects a null callback; creates the
underlying hash table with the caller's key callbacks and the
list-shaped value callbacks (`copyLinkListVal`, `destroyList`,
`displayList`); NULL when the underlying creation fails.  `bucketAlloc`
is threaded to `createHashTable` as in its own model. -/
def createMultiValueHashTable (copyKey : Option (CopyFunction κ))
    (freeKey : Option (FreeFunction κ)) (printKey : Option (PrintFunction κ))
    (copyValue : Option (CopyFunction ν)) (freeValue : Option (FreeFunction ν))
    (printValue : Option (PrintFunction ν)) (equalKey : Option (EqualFunction κ κ))
    (equalVal : Option (EqualFunction ν ν))
    (transformIntoNumber : Option (TransformIntoNumberFunction κ)) (MultiHashNumber : Int)
    (bucketAlloc : Nat → Bool) : multiHashTable κ ν :=
  match copyKey, freeKey, printKey, copyValue, freeValue, printValue, equalKey, equalVal,
        transformIntoNumber with
  | some ck, some fk, some pk, some cv, some fv, some pv, some ek, some ev, some tn =>
      match (createHashTable (some ck) (some fk) (some pk)
              (some (copyLinkListVal (ν := ν))) (some (fun l => destroyList (some l)))
              (some (fun l => displayList (some l))) (some ek) (some tn) MultiHashNumber
              bucketAlloc).result with
      | none => none
      | some ht =>
          some { HashTable := ht, transIntoNumber := tn,
                 copyKey := ck, freeKey := fk, printKey := pk,
                 copyValue := cv, freeValue := fv, printValue := pv,
                 equalKey := ek, equalVal := ev }
  | _, _, _, _, _, _, _, _, _ => none

/-- `destroyMultiValueHashTable`. -/
def destroyMultiValueHashTable (MultiHashTable : multiHashTable κ ν) : status :=
  match MultiHashTable with
  | none => status.Invalid_input
  | some _ => status.success

/-- Replace the value slot of the first pair matching the probe (under
the bucket's equal callback).  This is the write-back half of the C
aliasing: `lookupInHashTable` on a multi-value table returns the stored
list handle itself (value copies are `copyLinkListVal`), and the C code
then mutates that list in place; the functional model makes the same
update explicit on the stored pair. -/
def replaceFirstValue (eq : EqualFunction (KeyValuePair_s κ ν) κ) (k : κ) (newv : ν) :
    List (KeyValuePair_s κ ν) → List (KeyValuePair_s κ ν)
  | [] => []
  | p :: ps =>
      if eq p k then { p with value := newv } :: ps
      else p :: replaceFirstValue eq k newv ps

/-- Write an updated per-key value list back into the pair the C code
mutated through the aliased handle: the first pair matching `k` in `k`'s
bucket. -/
def updateAliasedValue (t : hashTable_s κ (LinkedList_s ν ν)) (k : κ)
    (newList : LinkedList_s ν ν) : hashTable_s κ (LinkedList_s ν ν) :=
  let index := hashIndex t k
  if 0 ≤ index then
    match t.table.get? index.toNat with
    | none => t
    | some bucket =>
        let bucket2 := { bucket with
          elements := replaceFirstValue bucket.equal k newList bucket.elements }
        { t with table := t.table.set index.toNat bucket2 }
  else t

/-- `addToMultiValueHashTable`: null checks; looks the key up in the
underlying table.  If absent: creates a fresh per-key list with the
caller's value callbacks, appends the value to it (destroying the list
and propagating `Memory_Problem`/`Invalid_input` on failure), and
inserts `(key, list)` into the underlying table with the same
failure-unwind; note the C code returns `success` after an
`Invalid_input` from the underlying insert.  If present: appends the
value to the existing (aliased) per-key list. -/
def addToMultiValueHashTable (MultiHashTable : multiHashTable κ ν) (key : Option κ)
    (value : Option ν) : status × multiHashTable κ ν :=
  match MultiHashTable, key, value with
  | some mt, some k, some v =>
      match lookupInHashTable (some mt.HashTable) (some k) with
      | none =>
          match createLinkedList (some mt.copyValue) (some mt.freeValue) (some mt.printValue)
              (some mt.equalVal) with
          | none => (status.failure, some mt)
          | some valuesLinkedList =>
              match appendNode (some valuesLinkedList) (some v) with
              | (status.Memory_Problem, _) => (status.Memory_Problem, some mt)
              | (status.Invalid_input, _) => (status.Invalid_input, some mt)
              | (_, none) => (status.success, some mt)
              | (_, some withValue) =>
                  match addToHashTable (some mt.HashTable) (some k) (some withValue) with
                  | (status.Memory_Problem, _) => (status.Memory_Problem, some mt)
                  | (_, some ht2) => (status.success, some { mt with HashTable := ht2 })
                  | (_, none) => (status.success, some mt)
      | some link_to_add =>
          match appendNode (some link_to_add) (some v) with
          | (status.Memory_Problem, _) => (status.Memory_Problem, some mt)
          | (status.Invalid_input, _) => (status.Invalid_input, some mt)
          | (_, none) => (status.success, some mt)
          | (_, some newList) =>
              (status.success,
               some { mt with HashTable := updateAliasedValue mt.HashTable k newList })
  | _, _, _ => (status.Invalid_input, MultiHashTable)

/-- `lookupInMultiValueHashTable`: the live per-key list handle (the
underlying table's value copy is the pass-through `copyLinkListVal`), or
NULL when the key is absent. -/
def lookupInMultiValueHashTable (MultiHashTable : multiHashTable κ ν) (key : Option κ) :
    Option (LinkedList_s ν ν) :=
  match MultiHashTable, key with
  | some mt, some k => lookupInHashTable (some mt.HashTable) (some k)
  | _, _ => none

/-- `removeFromMultiValueHashTable`: null checks; `no_element` when the
key is absent or the value is not found in the key's list
(`searchByKeyInList` with the list's equal callback); otherwise deletes
the first matching value from the (aliased) list and, when the list
became empty, evicts the key from the underlying table. -/
def removeFromMultiValueHashTable (MultiHashTable : multiHashTable κ ν) (key : Option κ)
    (compareVal : Option ν) : status × multiHashTable κ ν :=
  match MultiHashTable, key, compareVal with
  | some mt, some k, some v =>
      match lookupInHashTable (some mt.HashTable) (some k) with
      | none => (status.no_element, some mt)
      | some valuesLinkedList =>
          match searchByKeyInList (some valuesLinkedList) (some v) with
          | none => (status.no_element, some mt)
          | some _ =>
              match deleteNode (some valuesLinkedList) (some v) with
              | (status.Invalid_input, _) => (status.Invalid_input, some mt)
              | (_, none) => (status.success, some mt)
              | (_, some list2) =>
                  let ht2 := updateAliasedValue mt.HashTable k list2
                  if getLengthList (some list2) = 0 then
                    match removeFromHashTable (some ht2) (some k) with
                    | (status.Invalid_input, some ht3) =>
                        (status.Invalid_input, some { mt with HashTable := ht3 })
                    | (status.Invalid_input, none) => (status.Invalid_input, some mt)
                    | (_, some ht3) => (status.success, some { mt with HashTable := ht3 })
                    | (_, none) => (status.success, some { mt with HashTable := ht2 })
                  else (status.success, some { mt with HashTable := ht2 })
  | _, _, _ => (status.Invalid_input, MultiHashTable)

/-- `displayMultiValueHashElementsByKey`: `no_element` when the key is
absent, otherwise prints the key and its value list. -/
def displayMultiValueHashElementsByKey (MultiHashTable : multiHashTable κ ν)
    (key : Option κ) : status :=
  match MultiHashTable, key with
  | some mt, some k =>
      match lookupInHashTable (some mt.HashTable) (some k) with
      | none => status.no_element
      | some _ => status.success
  | _, _ => status.Invalid_input

/-- A bucket list in the shape `createHashTable` produces and all table
operations preserve: the canonical callbacks installed at creation and a
`count_elements` field in sync with the chain length. -/
def WFBucket (b : LinkedList_s (KeyValuePair_s κ ν) κ) : Prop :=
  b.copyElement = copyKeyValuePairs ∧ b.equal = equalForInnerList ∧
    b.count_elements = (b.elements.length : Int)

/-- A hash table on which modulo indexing is well defined for
non-negative hash values: the bucket array length agrees with
`tableSize`, the size is positive, and every bucket is well formed. -/
def WFTable (t : hashTable_s κ ν) : Prop :=
  (t.table.length : Int) = t.tableSize ∧ 1 ≤ t.tableSize ∧ ∀ b ∈ t.table, WFBucket b

/-- The per-pair part of the multi-value invariant: the pair's value
slot is the aliased per-key list (pass-through copy), the list is
non-empty, and its count is in sync. -/
def MultiPairInv (p : KeyValuePair_s κ (LinkedList_s ν ν)) : Prop :=
  p.copyValue = copyLinkListVal ∧ p.value.elements ≠ [] ∧
    p.value.count_elements = (p.value.elements.length : Int)

/-- The multi-value table invariant on the underlying hash table: the
value copy callback is the pass-through one, every bucket is well
formed, and every stored pair satisfies `MultiPairInv` — in particular a
present key always maps to a non-empty value list. -/
def MultiTableInv (t : hashTable_s κ (LinkedList_s ν ν)) : Prop :=
  t.copyValue = copyLinkListVal ∧
    ∀ b ∈ t.table, WFBucket b ∧ ∀ p ∈ b.elements, MultiPairInv p

/-- One user-visible mutation of a multi-value hash table. -/
inductive MultiOp (κ ν : Type) where
  | add (k : κ) (v : ν)
  | remove (k : κ) (v : ν)

/-- Apply one operation to a multi-value table state, keeping the
resulting state whatever status is returned (the wrappers return the
unchanged state on any failure). -/
def applyMultiOp (mt : MultiHashTable_s κ ν) (op : MultiOp κ ν) : MultiHashTable_s κ ν :=
  match op with
  | MultiOp.add k v =>
      match addToMultiValueHashTable (some mt) (some k) (some v) with
      | (_, some mt2) => mt2
      | (_, none) => mt
  | MultiOp.remove k v =>
      match removeFromMultiValueHashTable (some mt) (some k) (some v) with
      | (_, some mt2) => mt2
      | (_, none) => mt

/-- Run a finite sequence of multi-value table operations. -/
def runMultiOps (mt : MultiHashTable_s κ ν) (ops : List (MultiOp κ ν)) :
    MultiHashTable_s κ ν :=
  ops.foldl applyMultiOp mt

/-- Concrete `Nat` callback instances used by the executable witnesses:
identity copy. -/
def natCopy : CopyFunction Nat := fun n => some n

/-- Concrete free callback for `Nat` elements. -/
def natFree : FreeFunction Nat := fun _ => status.success

/-- Concrete print callback for `Nat` elements. -/
def natPrint : PrintFunction Nat := fun _ => status.success

/-- Concrete equality callback for `Nat` elements. -/
def natEqual : EqualFunction Nat Nat := fun a b => a == b

/-- Concrete hash callback for `Nat` keys. -/
def natHash : TransformIntoNumberFunction Nat := fun n => (n : Int)

/-- A concrete single-bucket hash table over `Nat` keys and values, in
the shape `createHashTable` produces, used by witnesses. -/
def natTable1 : hashTable_s Nat Nat :=
  { table := [freshBucket Nat Nat], tableSize := 1, numberOfElements := 0,
    transIntoNumber := natHash, copyKey := natCopy, freeKey := natFree, printKey := natPrint,
    copyValue := natCopy, freeValue := natFree, printValue := natPrint, equalKey := natEqual }

/-- A concrete single-bucket multi-value hash table over `Nat` keys and
values, in the shape `createMultiValueHashTable` produces, used by
witnesses. -/
def natMultiTable1 : MultiHashTable_s Nat Nat :=
  { HashTable :=
      { table := [freshBucket Nat (LinkedList_s Nat Nat)], tableSize := 1,
        numberOfElements := 0, transIntoNumber := natHash,
        copyKey := natCopy, freeKey := natFree, printKey := natPrint,
        copyValue := copyLinkListVal, freeValue := fun l => destroyList (some l),
        printValue := fun l => displayList (some l), equalKey := natEqual },
    transIntoNumber := natHash, copyKey := natCopy, freeKey := natFree, printKey := natPrint,
    copyValue := natCopy, freeValue := natFree, printValue := natPrint,
    equalKey := natEqual, equalVal := natEqual }

theorem checkPrimeLoop_iff (n : Nat) : ∀ (fuel i : Nat),
    (∀ j, j * j ≤ n → j < i + fuel) →
    (checkPrimeLoop n fuel i = true ↔ ∀ j, i ≤ j → j * j ≤ n → n % j ≠ 0) := by
  intro fuel
  induction fuel with
  | zero =>
    intro i hcov
    simp only [checkPrimeLoop, true_iff]
    intro j hij hj
    have := hcov j hj
    omega
  | succ f ih =>
    intro i hcov
    by_cases hsq : i * i ≤ n
    · by_cases hmod : n % i = 0
      · rw [show checkPrimeLoop n (f + 1) i = false by simp [checkPrimeLoop, hsq, hmod]]
        exact iff_of_false (by simp) (fun h => h i (Nat.le_refl i) hsq hmod)
      · rw [show checkPrimeLoop n (f + 1) i = checkPrimeLoop n f (i + 1) by
          simp [checkPrimeLoop, hsq, hmod]]
        rw [ih (i + 1) (fun j hj => by have := hcov j hj; omega)]
        constructor
        · intro h j hij hj
          rcases Nat.eq_or_lt_of_le hij with heq | hlt
          · rw [← heq]; exact hmod
          · exact h j hlt hj
        · intro h j hij hj
          exact h j (by omega) hj
    · rw [show checkPrimeLoop n (f + 1) i = true by simp [checkPrimeLoop, hsq]]
      simp only [true_iff]
      intro j hij hj
      exact absurd (Nat.le_trans (Nat.mul_le_mul hij hij) hj) hsq

theorem CheckPrimeNumber_iff_prime (n : Nat) :
    CheckPrimeNumber (n : Int) = true ↔ Nat.Prime n := by
  unfold CheckPrimeNumber
  rcases Nat.lt_or_ge n 2 with h2 | h2
  · interval_cases n <;> simp <;> decide
  · rcases Nat.eq_or_lt_of_le h2 with h2e | h3
    · subst h2e; simp; decide
    · have hc1 : ¬ ((n : Int) ≤ 1) := by omega
      have hc2 : ¬ ((n : Int) = 2) := by omega
      rw [if_neg hc1, if_neg hc2]
      have htn : (n : Int).toNat = n := Int.toNat_natCast n
      rw [htn]
      have hcov : ∀ j, j * j ≤ n → j < 2 + n := by
        intro j hj
        rcases Nat.lt_or_ge j 2 with hsm | hge
        · omega
        · have : j * 1 ≤ j * j := Nat.mul_le_mul_left j (by omega)
          omega
      rw [checkPrimeLoop_iff n n 2 hcov]
      constructor
      · intro h
        refine Nat.prime_def_le_sqrt.mpr ⟨h2, ?_⟩
        intro m hm hms hdvd
        exact h m hm (Nat.le_sqrt.mp hms) (Nat.dvd_iff_mod_eq_zero.mp hdvd)
      · intro hp j hj2 hjsq hmod
        exact (Nat.prime_def_le_sqrt.mp hp).2 j hj2 (Nat.le_sqrt.mpr hjsq)
          (Nat.dvd_of_mod_eq_zero hmod)

theorem findPrimeFrom_spec : ∀ (fuel start : Nat),
    (∃ k, k < fuel ∧ CheckPrimeNumber ((start + k : Nat) : Int) = true) →
    CheckPrimeNumber ((findPrimeFrom fuel start : Nat) : Int) = true ∧
    start ≤ findPrimeFrom fuel start ∧
    ∀ j : Nat, start ≤ j → j < findPrimeFrom fuel start → CheckPrimeNumber (j : Int) = false := by
  intro fuel
  induction fuel with
  | zero =>
    intro start h
    rcases h with ⟨k, hk, _⟩
    omega
  | succ f ih =>
    intro start h
    by_cases hs : CheckPrimeNumber (start : Int) = true
    · rw [show findPrimeFrom (f + 1) start = start by simp [findPrimeFrom, hs]]
      exact ⟨hs, Nat.le_refl _, fun j h1 h2 => by omega⟩
    · have hres : findPrimeFrom (f + 1) start = findPrimeFrom f (start + 1) := by
        simp [findPrimeFrom, hs]
      rcases h with ⟨k, hk, hck⟩
      have hk0 : k ≠ 0 := by
        intro h0
        subst h0
        exact hs hck
      have h2 : ∃ k2, k2 < f ∧ CheckPrimeNumber ((start + 1 + k2 : Nat) : Int) = true := by
        refine ⟨k - 1, by omega, ?_⟩
        have heq : start + 1 + (k - 1) = start + k := by omega
        rw [heq]
        exact hck
      obtain ⟨ha, hb, hc⟩ := ih (start + 1) h2
      rw [hres]
      refine ⟨ha, by omega, ?_⟩
      intro j hj1 hj2
      rcases Nat.eq_or_lt_of_le hj1 with heq | hlt
      · rw [← heq]
        exact Bool.eq_false_iff.mpr hs
      · exact hc j hlt hj2

theorem FindBiggerPrimeNumber_spec_of_ge (N : Int) (h : 13 ≤ N) :
    isSmallestPrimeStrictlyAbove N (FindBiggerPrimeNumber N) := by
  have hN : ((N.toNat : Int)) = N := Int.toNat_of_nonneg (by omega)
  have hn13 : 13 ≤ N.toNat := by omega
  have hfb : FindBiggerPrimeNumber N =
      Int.ofNat (findPrimeFrom (N.toNat + 1) (N.toNat + 1)) := by
    unfold FindBiggerPrimeNumber
    rw [if_neg (by omega)]
  obtain ⟨p, hp, hnp, hple⟩ := Nat.exists_prime_lt_and_le_two_mul N.toNat (by omega)
  have hex : ∃ k, k < N.toNat + 1 ∧
      CheckPrimeNumber ((N.toNat + 1 + k : Nat) : Int) = true := by
    refine ⟨p - (N.toNat + 1), by omega, ?_⟩
    have heq : N.toNat + 1 + (p - (N.toNat + 1)) = p := by omega
    rw [heq]
    exact (CheckPrimeNumber_iff_prime p).mpr hp
  obtain ⟨ha, hb, hc⟩ := findPrimeFrom_spec (N.toNat + 1) (N.toNat + 1) hex
  refine ⟨?_, ?_, ?_⟩
  · rw [hfb]
    have : (Int.ofNat (findPrimeFrom (N.toNat + 1) (N.toNat + 1))).toNat =
        findPrimeFrom (N.toNat + 1) (N.toNat + 1) := rfl
    rw [this]
    exact (CheckPrimeNumber_iff_prime _).mp ha
  · rw [hfb, Int.ofNat_eq_coe]
    have : (N.toNat : Int) < ((findPrimeFrom (N.toNat + 1) (N.toNat + 1) : Nat) : Int) := by
      exact_mod_cast (by omega : N.toNat < findPrimeFrom (N.toNat + 1) (N.toNat + 1))
    omega
  · intro q hq hNq
    rw [hfb, Int.ofNat_eq_coe]
    by_contra hcon
    push_neg at hcon
    have hqr : q < findPrimeFrom (N.toNat + 1) (N.toNat + 1) := by
      exact_mod_cast hcon
    have hqge : N.toNat + 1 ≤ q := by omega
    have hfalse := hc q hqge hqr
    rw [(CheckPrimeNumber_iff_prime q).mpr hq] at hfalse
    simp at hfalse

/-- C1 counterexample: the claim says `FindBiggerPrimeNumber N` is the
smallest prime greater than or equal to `N` for `N ≥ 13`; but at the
prime input 13 the function returns 17, not 13, because the C loop
increments `i` before the first primality test. -/
theorem C1_counterexample :
    FindBiggerPrimeNumber 13 = 17 ∧ Nat.Prime 13 ∧ (13 : Int) ≤ 13 ∧
      FindBiggerPrimeNumber 13 ≠ 13 := by
  refine ⟨by decide, by norm_num, by decide, by decide⟩

/-- C1 (amended): for every integer `N ≥ 13`, `FindBiggerPrimeNumber N`
returns the smallest prime number strictly greater than `N`; for every
integer `N < 13` it returns 13 (the floor). -/
theorem C1_amended_theorem (N : Int) :
    (N < 13 → FindBiggerPrimeNumber N = 13) ∧
    (13 ≤ N → isSmallestPrimeStrictlyAbove N (FindBiggerPrimeNumber N)) := by
  constructor
  · intro h
    unfold FindBiggerPrimeNumber
    rw [if_pos h]
  · intro h
    exact FindBiggerPrimeNumber_spec_of_ge N h

/-- C1 amended-theorem witness at the concrete inputs 5 and 20. -/
theorem C1_amended_witness :
    FindBiggerPrimeNumber 5 = 13 ∧
      isSmallestPrimeStrictlyAbove 20 (FindBiggerPrimeNumber 20) :=
  ⟨(C1_amended_theorem 5).1 (by decide), (C1_amended_theorem 20).2 (by decide)⟩

/-- C8: `FindBiggerPrimeNumber` maps 1 to 13, 13 to 17 and 25 to 29, and
for every integer `n` it returns a prime number at least `max n 13`. -/
theorem C8_theorem :
    FindBiggerPrimeNumber 1 = 13 ∧ FindBiggerPrimeNumber 13 = 17 ∧
    FindBiggerPrimeNumber 25 = 29 ∧
    ∀ n : Int, Nat.Prime (FindBiggerPrimeNumber n).toNat ∧
      max n 13 ≤ FindBiggerPrimeNumber n := by
  refine ⟨by decide, by decide, by decide, ?_⟩
  intro n
  rcases Int.lt_or_le n 13 with h | h
  · have he : FindBiggerPrimeNumber n = 13 := by
      unfold FindBiggerPrimeNumber
      rw [if_pos h]
    rw [he]
    have ht : Int.toNat 13 = 13 := rfl
    rw [ht]
    exact ⟨by norm_num, by omega⟩
  · obtain ⟨hp, hlt, _⟩ := FindBiggerPrimeNumber_spec_of_ge n h
    exact ⟨hp, by omega⟩

theorem removeFirstBy_eq_none {α β : Type} (eq : EqualFunction α β) (p : β) :
    ∀ l : List α, (∀ x ∈ l, eq x p = false) → removeFirstBy eq p l = none := by
  intro l
  induction l with
  | nil => intro _; rfl
  | cons x xs ih =>
    intro h
    have hx : eq x p = false := h x (List.mem_cons_self x xs)
    simp only [removeFirstBy, hx]
    rw [ih (fun y hy => h y (List.mem_cons_of_mem x hy))]
    rfl

theorem removeFirstBy_first_match {α β : Type} (eq : EqualFunction α β) (p : β) :
    ∀ (l1 : List α) (x : α) (l2 : List α), (∀ y ∈ l1, eq y p = false) → eq x p = true →
    removeFirstBy eq p (l1 ++ x :: l2) = some (l1 ++ l2) := by
  intro l1
  induction l1 with
  | nil =>
    intro x l2 _ hx
    simp [removeFirstBy, hx]
  | cons y ys ih =>
    intro x l2 h hx
    have hy : eq y p = false := h y (List.mem_cons_self y ys)
    have ih2 := ih x l2 (fun z hz => h z (List.mem_cons_of_mem y hz)) hx
    simp [removeFirstBy, hy, ih2]

/-- C7: for every non-null linked list and non-null probe, `deleteNode`
removes exactly the first node (scanning head to tail) whose element
satisfies the stored equal callback against the probe — whatever its
position in the chain — decrementing the element count by one; when no
node matches it returns `no_element` and leaves the list unchanged. -/
theorem C7_theorem {α β : Type} (l : LinkedList_s α β) (p : β) :
    (∀ (l1 : List α) (x : α) (l2 : List α), l.elements = l1 ++ x :: l2 →
      (∀ y ∈ l1, l.equal y p = false) → l.equal x p = true →
      deleteNode (some l) (some p) =
        (status.success,
         some { l with elements := l1 ++ l2, count_elements := l.count_elements - 1 })) ∧
    ((∀ x ∈ l.elements, l.equal x p = false) →
      deleteNode (some l) (some p) = (status.no_element, some l)) := by
  constructor
  · intro l1 x l2 hsplit hno hx
    simp only [deleteNode, hsplit, removeFirstBy_first_match l.equal p l1 x l2 hno hx]
  · intro hnone
    simp only [deleteNode, removeFirstBy_eq_none l.equal p l.elements hnone]

/-- C7 witness: deleting the middle element of the concrete three-element
list `[10, 20, 30]`, and a no-match delete on the same list. -/
theorem C7_witness :
    deleteNode (some (LinkedList_s.mk natCopy natFree natPrint natEqual [10, 20, 30] 3))
        (some 20) =
      (status.success,
       some (LinkedList_s.mk natCopy natFree natPrint natEqual ([10] ++ [30]) (3 - 1))) ∧
    deleteNode (some (LinkedList_s.mk natCopy natFree natPrint natEqual [10, 20, 30] 3))
        (some 99) =
      (status.no_element,
       some (LinkedList_s.mk natCopy natFree natPrint natEqual [10, 20, 30] 3)) :=
  ⟨(C7_theorem (LinkedList_s.mk natCopy natFree natPrint natEqual [10, 20, 30] 3) 20).1
      [10] 20 [30] rfl (by decide) (by decide),
   (C7_theorem (LinkedList_s.mk natCopy natFree natPrint natEqual [10, 20, 30] 3) 99).2
      (by decide)⟩

/-- C6: on a freshly created list, appending `e1, e2, e3` (all copies
succeeding) makes `getDataByIndex` at indices 1, 2, 3 return copies of
`e1, e2, e3` in that exact order; after deleting `e2` and appending
`e4`, the list order is `[e1, e3, e4]` — append always inserts at the
tail, so iteration order equals insertion order. -/
theorem C6_theorem {α : Type} (cf : CopyFunction α) (ff : FreeFunction α)
    (pf : PrintFunction α) (ef : EqualFunction α α)
    (e1 e2 e3 e4 f1 f2 f3 f4 g1 g2 g3 g4 : α)
    (hc1 : cf e1 = some f1) (hc2 : cf e2 = some f2) (hc3 : cf e3 = some f3)
    (hc4 : cf e4 = some f4)
    (hg1 : cf f1 = some g1) (hg2 : cf f2 = some g2) (hg3 : cf f3 = some g3)
    (hg4 : cf f4 = some g4)
    (heq2 : ef f2 e2 = true) (hne1 : ef f1 e2 = false) :
    getDataByIndex ((appendNode ((appendNode ((appendNode
        (createLinkedList (some cf) (some ff) (some pf) (some ef))
        (some e1)).2) (some e2)).2) (some e3)).2) 1 = some g1 ∧
    getDataByIndex ((appendNode ((appendNode ((appendNode
        (createLinkedList (some cf) (some ff) (some pf) (some ef))
        (some e1)).2) (some e2)).2) (some e3)).2) 2 = some g2 ∧
    getDataByIndex ((appendNode ((appendNode ((appendNode
        (createLinkedList (some cf) (some ff) (some pf) (some ef))
        (some e1)).2) (some e2)).2) (some e3)).2) 3 = some g3 ∧
    (appendNode ((deleteNode ((appendNode ((appendNode ((appendNode
        (createLinkedList (some cf) (some ff) (some pf) (some ef))
        (some e1)).2) (some e2)).2) (some e3)).2) (some e2)).2) (some e4)).2 =
      some (LinkedList_s.mk cf ff pf ef [f1, f3, f4] 3) ∧
    getDataByIndex ((appendNode ((deleteNode ((appendNode ((appendNode ((appendNode
        (createLinkedList (some cf) (some ff) (some pf) (some ef))
        (some e1)).2) (some e2)).2) (some e3)).2) (some e2)).2) (some e4)).2) 1 = some g1 ∧
    getDataByIndex ((appendNode ((deleteNode ((appendNode ((appendNode ((appendNode
        (createLinkedList (some cf) (some ff) (some pf) (some ef))
        (some e1)).2) (some e2)).2) (some e3)).2) (some e2)).2) (some e4)).2) 2 = some g3 ∧
    getDataByIndex ((appendNode ((deleteNode ((appendNode ((appendNode ((appendNode
        (createLinkedList (some cf) (some ff) (some pf) (some ef))
        (some e1)).2) (some e2)).2) (some e3)).2) (some e2)).2) (some e4)).2) 3 = some g4 := by
  have hs3 : (appendNode ((appendNode ((appendNode
      (createLinkedList (some cf) (some ff) (some pf) (some ef))
      (some e1)).2) (some e2)).2) (some e3)).2 =
      some (LinkedList_s.mk cf ff pf ef [f1, f2, f3] 3) := by
    simp [createLinkedList, appendNode, hc1, hc2, hc3]
  have hs5 : (appendNode ((deleteNode ((appendNode ((appendNode ((appendNode
      (createLinkedList (some cf) (some ff) (some pf) (some ef))
      (some e1)).2) (some e2)).2) (some e3)).2) (some e2)).2) (some e4)).2 =
      some (LinkedList_s.mk cf ff pf ef [f1, f3, f4] 3) := by
    rw [hs3]
    simp [deleteNode, removeFirstBy, hne1, heq2, appendNode, hc4]
  rw [hs5, hs3]
  refine ⟨?_, ?_, ?_, rfl, ?_, ?_, ?_⟩ <;>
    simp [getDataByIndex, hg1, hg2, hg3, hg4]

/-- C6 witness: the concrete scenario with `Nat` elements `1, 2, 3, 4`,
identity copies and boolean equality. -/
theorem C6_witness :
    getDataByIndex ((appendNode ((appendNode ((appendNode
        (createLinkedList (some natCopy) (some natFree) (some natPrint) (some natEqual))
        (some 1)).2) (some 2)).2) (some 3)).2) 1 = some 1 ∧
    (appendNode ((deleteNode ((appendNode ((appendNode ((appendNode
        (createLinkedList (some natCopy) (some natFree) (some natPrint) (some natEqual))
        (some 1)).2) (some 2)).2) (some 3)).2) (some 2)).2) (some 4)).2 =
      some (LinkedList_s.mk natCopy natFree natPrint natEqual [1, 3, 4] 3) := by
  have h := C6_theorem natCopy natFree natPrint natEqual 1 2 3 4 1 2 3 4 1 2 3 4
    rfl rfl rfl rfl rfl rfl rfl rfl (by decide) (by decide)
  exact ⟨h.1, h.2.2.2.1⟩

/-- C9: every core operation of the list, pair, hash-table and
multi-value-table modules detects a null required argument at entry and
returns its typed invalid-input result — `Invalid_input` for
status-returning operations (with the container state unchanged), NULL
for value-returning operations and for constructors, including every
constructor given a null callback, `false` for the boolean `isEqualKey`,
and -1 for the length query. -/
theorem C9_theorem :
    (∀ (α β : Type) (b : Option (FreeFunction α)) (c : Option (PrintFunction α))
       (d : Option (EqualFunction α β)), createLinkedList none b c d = none) ∧
    (∀ (α β : Type) (a : Option (CopyFunction α)) (c : Option (PrintFunction α))
       (d : Option (EqualFunction α β)), createLinkedList a none c d = none) ∧
    (∀ (α β : Type) (a : Option (CopyFunction α)) (b : Option (FreeFunction α))
       (d : Option (EqualFunction α β)), createLinkedList a b none d = none) ∧
    (∀ (α β : Type) (a : Option (CopyFunction α)) (b : Option (FreeFunction α))
       (c : Option (PrintFunction α)),
       createLinkedList (β := β) a b c none = none) ∧
    (∀ (α β : Type), destroyList (none : LinkedList α β) = status.Invalid_input) ∧
    (∀ (α β : Type) (e : Option α),
       appendNode (none : LinkedList α β) e = (status.Invalid_input, none)) ∧
    (∀ (α β : Type) (l : LinkedList_s α β),
       appendNode (some l) none = (status.Invalid_input, some l)) ∧
    (∀ (α β : Type) (p : Option β),
       deleteNode (none : LinkedList α β) p = (status.Invalid_input, none)) ∧
    (∀ (α β : Type) (l : LinkedList_s α β),
       deleteNode (some l) none = (status.Invalid_input, some l)) ∧
    (∀ (α β : Type), displayList (none : LinkedList α β) = status.Invalid_input) ∧
    (∀ (α β : Type) (i : Int), getDataByIndex (none : LinkedList α β) i = none) ∧
    (∀ (α β : Type), getLengthList (none : LinkedList α β) = -1) ∧
    (∀ (α β : Type) (k : Option β), searchByKeyInList (none : LinkedList α β) k = none) ∧
    (∀ (α β : Type) (l : LinkedList_s α β), searchByKeyInList (some l) none = none) ∧
    (∀ (κ ν : Type) (v : Option ν) (a : Option (CopyFunction κ)) (b : Option (FreeFunction κ))
       (c : Option (PrintFunction κ)) (d : Option (CopyFunction ν))
       (e : Option (FreeFunction ν)) (f : Option (PrintFunction ν))
       (g : Option (EqualFunction κ κ)),
       createKeyValuePair none v a b c d e f g = none) ∧
    (∀ (κ ν : Type) (k : Option κ) (a : Option (CopyFunction κ)) (b : Option (FreeFunction κ))
       (c : Option (PrintFunction κ)) (d : Option (CopyFunction ν))
       (e : Option (FreeFunction ν)) (f : Option (PrintFunction ν))
       (g : Option (EqualFunction κ κ)),
       createKeyValuePair (ν := ν) k none a b c d e f g = none) ∧
    (∀ (κ ν : Type) (k : Option κ) (v : Option ν) (b : Option (FreeFunction κ))
       (c : Option (PrintFunction κ)) (d : Option (CopyFunction ν))
       (e : Option (FreeFunction ν)) (f : Option (PrintFunction ν))
       (g : Option (EqualFunction κ κ)),
       createKeyValuePair k v none b c d e f g = none) ∧
    (∀ (κ ν : Type) (k : Option κ) (v : Option ν) (a : Option (CopyFunction κ))
       (c : Option (PrintFunction κ)) (d : Option (CopyFunction ν))
       (e : Option (FreeFunction ν)) (f : Option (PrintFunction ν))
       (g : Option (EqualFunction κ κ)),
       createKeyValuePair k v a none c d e f g = none) ∧
    (∀ (κ ν : Type) (k : Option κ) (v : Option ν) (a : Option (CopyFunction κ))
       (b : Option (FreeFunction κ)) (d : Option (CopyFunction ν))
       (e : Option (FreeFunction ν)) (f : Option (PrintFunction ν))
       (g : Option (EqualFunction κ κ)),
       createKeyValuePair k v a b none d e f g = none) ∧
    (∀ (κ ν : Type) (k : Option κ) (v : Option ν) (a : Option (CopyFunction κ))
       (b : Option (FreeFunction κ)) (c : Option (PrintFunction κ))
       (e : Option (FreeFunction ν)) (f : Option (PrintFunction ν))
       (g : Option (EqualFunction κ κ)),
       createKeyValuePair k v a b c none e f g = none) ∧
    (∀ (κ ν : Type) (k : Option κ) (v : Option ν) (a : Option (CopyFunction κ))
       (b : Option (FreeFunction κ)) (c : Option (PrintFunction κ))
       (d : Option (CopyFunction ν)) (f : Option (PrintFunction ν))
       (g : Option (EqualFunction κ κ)),
       createKeyValuePair k v a b c d none f g = none) ∧
    (∀ (κ ν : Type) (k : Option κ) (v : Option ν) (a : Option (CopyFunction κ))
       (b : Option (FreeFunction κ)) (c : Option (PrintFunction κ))
       (d : Option (CopyFunction ν)) (e : Option (FreeFunction ν))
       (g : Option (EqualFunction κ κ)),
       createKeyValuePair k v a b c d e none g = none) ∧
    (∀ (κ ν : Type) (k : Option κ) (v : Option ν) (a : Option (CopyFunction κ))
       (b : Option (FreeFunction κ)) (c : Option (PrintFunction κ))
       (d : Option (CopyFunction ν)) (e : Option (FreeFunction ν))
       (f : Option (PrintFunction ν)),
       createKeyValuePair k v a b c d e f none = none) ∧
    (∀ (κ ν : Type), destroyKeyValuePair (none : KeyValuePair κ ν) = status.Invalid_input) ∧
    (∀ (κ ν : Type), displayValue (none : KeyValuePair κ ν) = status.Invalid_input) ∧
    (∀ (κ ν : Type), displayKey (none : KeyValuePair κ ν) = status.Invalid_input) ∧
    (∀ (κ ν : Type), getValue (none : KeyValuePair κ ν) = none) ∧
    (∀ (κ ν : Type), getKey (none : KeyValuePair κ ν) = none) ∧
    (∀ (κ ν : Type) (k : Option κ), isEqualKey (none : KeyValuePair κ ν) k = false) ∧
    (∀ (κ ν : Type) (p : KeyValuePair_s κ ν), isEqualKey (some p) none = false) ∧
    (∀ (κ ν : Type) (b : Option (FreeFunction κ)) (c : Option (PrintFunction κ))
       (d : Option (CopyFunction ν)) (e : Option (FreeFunction ν))
       (f : Option (PrintFunction ν)) (g : Option (EqualFunction κ κ))
       (h : Option (TransformIntoNumberFunction κ)) (n : Int) (al : Nat → Bool),
       (createHashTable none b c d e f g h n al).result = none) ∧
    (∀ (κ ν : Type) (a : Option (CopyFunction κ)) (c : Option (PrintFunction κ))
       (d : Option (CopyFunction ν)) (e : Option (FreeFunction ν))
       (f : Option (PrintFunction ν)) (g : Option (EqualFunction κ κ))
       (h : Option (TransformIntoNumberFunction κ)) (n : Int) (al : Nat → Bool),
       (createHashTable a none c d e f g h n al).result = none) ∧
    (∀ (κ ν : Type) (a : Option (CopyFunction κ)) (b : Option (FreeFunction κ))
       (d : Option (CopyFunction ν)) (e : Option (FreeFunction ν))
       (f : Option (PrintFunction ν)) (g : Option (EqualFunction κ κ))
       (h : Option (TransformIntoNumberFunction κ)) (n : Int) (al : Nat → Bool),
       (createHashTable a b none d e f g h n al).result = none) ∧
    (∀ (κ ν : Type) (a : Option (CopyFunction κ)) (b : Option (FreeFunction κ))
       (c : Option (PrintFunction κ)) (e : Option (FreeFunction ν))
       (f : Option (PrintFunction ν)) (g : Option (EqualFunction κ κ))
       (h : Option (TransformIntoNumberFunction κ)) (n : Int) (al : Nat → Bool),
       (createHashTable a b c none e f g h n al).result = none) ∧
    (∀ (κ ν : Type) (a : Option (CopyFunction κ)) (b : Option (FreeFunction κ))
       (c : Option (PrintFunction κ)) (d : Option (CopyFunction ν))
       (f : Option (PrintFunction ν)) (g : Option (EqualFunction κ κ))
       (h : Option (TransformIntoNumberFunction κ)) (n : Int) (al : Nat → Bool),
       (createHashTable a b c d none f g h n al).result = none) ∧
    (∀ (κ ν : Type) (a : Option (CopyFunction κ)) (b : Option (FreeFunction κ))
       (c : Option (PrintFunction κ)) (d : Option (CopyFunction ν))
       (e : Option (FreeFunction ν)) (g : Option (EqualFunction κ κ))
       (h : Option (TransformIntoNumberFunction κ)) (n : Int) (al : Nat → Bool),
       (createHashTable a b c d e none g h n al).result = none) ∧
    (∀ (κ ν : Type) (a : Option (CopyFunction κ)) (b : Option (FreeFunction κ))
       (c : Option (PrintFunction κ)) (d : Option (CopyFunction ν))
       (e : Option (FreeFunction ν)) (f : Option (PrintFunction ν))
       (h : Option (TransformIntoNumberFunction κ)) (n : Int) (al : Nat → Bool),
       (createHashTable a b c d e f none h n al).result = none) ∧
    (∀ (κ ν : Type) (a : Option (CopyFunction κ)) (b : Option (FreeFunction κ))
       (c : Option (PrintFunction κ)) (d : Option (CopyFunction ν))
       (e : Option (FreeFunction ν)) (f : Option (PrintFunction ν))
       (g : Option (EqualFunction κ κ)) (n : Int) (al : Nat → Bool),
       (createHashTable a b c d e f g none n al).result = none) ∧
    (∀ (κ ν : Type), destroyHashTable (none : hashTable κ ν) = status.Invalid_input) ∧
    (∀ (κ ν : Type) (k : Option κ) (v : Option ν),
       addToHashTable (none : hashTable κ ν) k v = (status.Invalid_input, none)) ∧
    (∀ (κ ν : Type) (t : hashTable_s κ ν) (v : Option ν),
       addToHashTable (some t) none v = (status.Invalid_input, some t)) ∧
    (∀ (κ ν : Type) (t : hashTable_s κ ν) (k : κ),
       addToHashTable (some t) (some k) none = (status.Invalid_input, some t)) ∧
    (∀ (κ ν : Type) (k : Option κ), lookupInHashTable (none : hashTable κ ν) k = none) ∧
    (∀ (κ ν : Type) (t : hashTable_s κ ν), lookupInHashTable (some t) none = none) ∧
    (∀ (κ ν : Type) (k : Option κ),
       removeFromHashTable (none : hashTable κ ν) k = (status.Invalid_input, none)) ∧
    (∀ (κ ν : Type) (t : hashTable_s κ ν),
       removeFromHashTable (some t) none = (status.Invalid_input, some t)) ∧
    (∀ (κ ν : Type), displayHashElements (none : hashTable κ ν) = status.Invalid_input) ∧
    (∀ (κ ν : Type) (b : Option (FreeFunction κ)) (c : Option (PrintFunction κ))
       (d : Option (CopyFunction ν)) (e : Option (FreeFunction ν))
       (f : Option (PrintFunction ν)) (g : Option (EqualFunction κ κ))
       (g2 : Option (EqualFunction ν ν)) (h : Option (TransformIntoNumberFunction κ))
       (n : Int) (al : Nat → Bool),
       createMultiValueHashTable none b c d e f g g2 h n al = none) ∧
    (∀ (κ ν : Type) (a : Option (CopyFunction κ)) (c : Option (PrintFunction κ))
       (d : Option (CopyFunction ν)) (e : Option (FreeFunction ν))
       (f : Option (PrintFunction ν)) (g : Option (EqualFunction κ κ))
       (g2 : Option (EqualFunction ν ν)) (h : Option (TransformIntoNumberFunction κ))
       (n : Int) (al : Nat → Bool),
       createMultiValueHashTable a none c d e f g g2 h n al = none) ∧
    (∀ (κ ν : Type) (a : Option (CopyFunction κ)) (b : Option (FreeFunction κ))
       (d : Option (CopyFunction ν)) (e : Option (FreeFunction ν))
       (f : Option (PrintFunction ν)) (g : Option (EqualFunction κ κ))
       (g2 : Option (EqualFunction ν ν)) (h : Option (TransformIntoNumberFunction κ))
       (n : Int) (al : Nat → Bool),
       createMultiValueHashTable a b none d e f g g2 h n al = none) ∧
    (∀ (κ ν : Type) (a : Option (CopyFunction κ)) (b : Option (FreeFunction κ))
       (c : Option (PrintFunction κ)) (e : Option (FreeFunction ν))
       (f : Option (PrintFunction ν)) (g : Option (EqualFunction κ κ))
       (g2 : Option (EqualFunction ν ν)) (h : Option (TransformIntoNumberFunction κ))
       (n : Int) (al : Nat → Bool),
       createMultiValueHashTable a b c none e f g g2 h n al = none) ∧
    (∀ (κ ν : Type) (a : Option (CopyFunction κ)) (b : Option (FreeFunction κ))
       (c : Option (PrintFunction κ)) (d : Option (CopyFunction ν))
       (f : Option (PrintFunction ν)) (g : Option (EqualFunction κ κ))
       (g2 : Option (EqualFunction ν ν)) (h : Option (TransformIntoNumberFunction κ))
       (n : Int) (al : Nat → Bool),
       createMultiValueHashTable a b c d none f g g2 h n al = none) ∧
    (∀ (κ ν : Type) (a : Option (CopyFunction κ)) (b : Option (FreeFunction κ))
       (c : Option (PrintFunction κ)) (d : Option (CopyFunction ν))
       (e : Option (FreeFunction ν)) (g : Option (EqualFunction κ κ))
       (g2 : Option (EqualFunction ν ν)) (h : Option (TransformIntoNumberFunction κ))
       (n : Int) (al : Nat → Bool),
       createMultiValueHashTable a b c d e none g g2 h n al = none) ∧
    (∀ (κ ν : Type) (a : Option (CopyFunction κ)) (b : Option (FreeFunction κ))
       (c : Option (PrintFunction κ)) (d : Option (CopyFunction ν))
       (e : Option (FreeFunction ν)) (f : Option (PrintFunction ν))
       (g2 : Option (EqualFunction ν ν)) (h : Option (TransformIntoNumberFunction κ))
       (n : Int) (al : Nat → Bool),
       createMultiValueHashTable a b c d e f none g2 h n al = none) ∧
    (∀ (κ ν : Type) (a : Option (CopyFunction κ)) (b : Option (FreeFunction κ))
       (c : Option (PrintFunction κ)) (d : Option (CopyFunction ν))
       (e : Option (FreeFunction ν)) (f : Option (PrintFunction ν))
       (g : Option (EqualFunction κ κ)) (h : Option (TransformIntoNumberFunction κ))
       (n : Int) (al : Nat → Bool),
       createMultiValueHashTable a b c d e f g none h n al = none) ∧
    (∀ (κ ν : Type) (a : Option (CopyFunction κ)) (b : Option (FreeFunction κ))
       (c : Option (PrintFunction κ)) (d : Option (CopyFunction ν))
       (e : Option (FreeFunction ν)) (f : Option (PrintFunction ν))
       (g : Option (EqualFunction κ κ)) (g2 : Option (EqualFunction ν ν))
       (n : Int) (al : Nat → Bool),
       createMultiValueHashTable a b c d e f g g2 none n al = none) ∧
    (∀ (κ ν : Type),
       destroyMultiValueHashTable (none : multiHashTable κ ν) = status.Invalid_input) ∧
    (∀ (κ ν : Type) (k : Option κ) (v : Option ν),
       addToMultiValueHashTable (none : multiHashTable κ ν) k v =
         (status.Invalid_input, none)) ∧
    (∀ (κ ν : Type) (mt : MultiHashTable_s κ ν) (v : Option ν),
       addToMultiValueHashTable (some mt) none v = (status.Invalid_input, some mt)) ∧
    (∀ (κ ν : Type) (mt : MultiHashTable_s κ ν) (k : κ),
       addToMultiValueHashTable (some mt) (some k) none = (status.Invalid_input, some mt)) ∧
    (∀ (κ ν : Type) (k : Option κ),
       lookupInMultiValueHashTable (none : multiHashTable κ ν) k = none) ∧
    (∀ (κ ν : Type) (mt : MultiHashTable_s κ ν),
       lookupInMultiValueHashTable (some mt) none = none) ∧
    (∀ (κ ν : Type) (k : Option κ) (v : Option ν),
       removeFromMultiValueHashTable (none : multiHashTable κ ν) k v =
         (status.Invalid_input, none)) ∧
    (∀ (κ ν : Type) (mt : MultiHashTable_s κ ν) (v : Option ν),
       removeFromMultiValueHashTable (some mt) none v = (status.Invalid_input, some mt)) ∧
    (∀ (κ ν : Type) (mt : MultiHashTable_s κ ν) (k : κ),
       removeFromMultiValueHashTable (some mt) (some k) none =
         (status.Invalid_input, some mt)) ∧
    (∀ (κ ν : Type) (k : Option κ),
       displayMultiValueHashElementsByKey (none : multiHashTable κ ν) k =
         status.Invalid_input) ∧
    (∀ (κ ν : Type) (mt : MultiHashTable_s κ ν),
       displayMultiValueHashElementsByKey (some mt) none = status.Invalid_input) := by
  repeat' apply And.intro
  all_goals intros
  all_goals try casesm* Option _
  all_goals rfl

theorem createHashTable_allocTrue {κ ν : Type} (a : CopyFunction κ) (b : FreeFunction κ)
    (c : PrintFunction κ) (d : CopyFunction ν) (e : FreeFunction ν) (f : PrintFunction ν)
    (g : EqualFunction κ κ) (h : TransformIntoNumberFunction κ) (n : Int) :
    createHashTable (some a) (some b) (some c) (some d) (some e) (some f) (some g)
        (some h) n (fun _ => true) =
      { result := some
          { table := (List.range n.toNat).map (fun _ => freshBucket κ ν),
            tableSize := n, numberOfElements := 0, transIntoNumber := h,
            copyKey := a, freeKey := b, printKey := c,
            copyValue := d, freeValue := e, printValue := f, equalKey := g },
        createdBuckets := List.range n.toNat, destroyedInCleanup := [] } := by
  have hfind : (List.range n.toNat).find? (fun i => !(fun _ : Nat => true) i) = none := by
    simp
  dsimp only [createHashTable]
  rw [hfind]

/-- C10: `createHashTable` performs no validation of the requested
bucket count — with non-null callbacks and every bucket allocation
succeeding it returns, for any integer bucket count including 0 and
negative values, a table whose `tableSize` is exactly that count (the
bucket array then has `toNat` of it cells, i.e. none for a non-positive
count).  The bucket index used by `addToHashTable`,
`lookupInHashTable` and `removeFromHashTable` is
`transIntoNumber(key) % tableSize` (C truncated modulo) with no guard,
and it lies in `[0, tableSize - 1]` under the preconditions
`tableSize ≥ 1` and `hash(key) ≥ 0`, while a negative hash value or a
zero table size makes it leave that range. -/
theorem C10_theorem :
    (∀ (κ ν : Type) (a : CopyFunction κ) (b : FreeFunction κ) (c : PrintFunction κ)
       (d : CopyFunction ν) (e : FreeFunction ν) (f : PrintFunction ν)
       (g : EqualFunction κ κ) (h : TransformIntoNumberFunction κ) (n : Int),
       ∃ t : hashTable_s κ ν,
         (createHashTable (some a) (some b) (some c) (some d) (some e) (some f) (some g)
            (some h) n (fun _ => true)).result = some t ∧
         t.tableSize = n ∧ t.table.length = n.toNat) ∧
    (∀ (κ ν : Type) (t : hashTable_s κ ν) (k : κ),
       hashIndex t k = Int.tmod (t.transIntoNumber k) t.tableSize) ∧
    (∀ hv m : Int, 1 ≤ m → 0 ≤ hv →
       0 ≤ Int.tmod hv m ∧ Int.tmod hv m < m) ∧
    Int.tmod (-1) 13 = -1 ∧
    Int.tmod 5 0 = 5 := by
  refine ⟨?_, ?_, ?_, by decide, by decide⟩
  · intro κ ν a b c d e f g h n
    rw [createHashTable_allocTrue]
    exact ⟨_, rfl, rfl, by simp⟩
  · intro κ ν t k
    rfl
  · intro hv m h1 h2
    exact ⟨Int.tmod_nonneg m h2, Int.tmod_lt_of_pos hv (by omega)⟩

/-- C10 witness: the table-size clause at size 13 with the concrete
`Nat` callbacks, and the in-range clause at hash 7 and size 13. -/
theorem C10_witness :
    (∃ t : hashTable_s Nat Nat,
       (createHashTable (some natCopy) (some natFree) (some natPrint) (some natCopy)
          (some natFree) (some natPrint) (some natEqual) (some natHash) 13
          (fun _ => true)).result = some t ∧
       t.tableSize = 13 ∧ t.table.length = (13 : Int).toNat) ∧
    (0 ≤ Int.tmod 7 13 ∧ Int.tmod 7 13 < 13) :=
  ⟨C10_theorem.1 Nat Nat natCopy natFree natPrint natCopy natFree natPrint natEqual
      natHash 13,
   C10_theorem.2.2.1 7 13 (by decide) (by decide)⟩

theorem find?_range'_first (p : Nat → Bool) : ∀ (len s i : Nat), s ≤ i → i < s + len →
    p i = true → (∀ j, s ≤ j → j < i → p j = false) →
    (List.range' s len).find? p = some i := by
  intro len
  induction len with
  | zero =>
    intro s i h1 h2
    omega
  | succ l ih =>
    intro s i h1 h2 hpi hprev
    rcases Nat.eq_or_lt_of_le h1 with heq | hlt
    · subst heq
      simp [List.range'_succ, List.find?, hpi]
    · have hps : p s = false := hprev s (Nat.le_refl s) hlt
      have : (List.range' s (l + 1)).find? p = (List.range' (s + 1) l).find? p := by
        simp [List.range', List.find?, hps]
      rw [this]
      exact ih (s + 1) i hlt (by omega) hpi (fun j hj1 hj2 => hprev j (by omega) hj2)

/-- C5 counterexample: with a two-bucket table whose second bucket-list
creation fails, `createHashTable` reports failure (NULL) but destroys
none of the previously created bucket lists — the bucket array and the
table struct are freed, the list created at index 0 is leaked, so the
claimed unwind of indices `0..i-1` does not happen. -/
theorem C5_counterexample :
    (createHashTable (some natCopy) (some natFree) (some natPrint) (some natCopy)
        (some natFree) (some natPrint) (some natEqual) (some natHash) 2
        (fun j => decide (j = 0)) : CreateHashTableResult Nat Nat).result = none ∧
    (createHashTable (some natCopy) (some natFree) (some natPrint) (some natCopy)
        (some natFree) (some natPrint) (some natEqual) (some natHash) 2
        (fun j => decide (j = 0)) : CreateHashTableResult Nat Nat).createdBuckets = [0] ∧
    (createHashTable (some natCopy) (some natFree) (some natPrint) (some natCopy)
        (some natFree) (some natPrint) (some natEqual) (some natHash) 2
        (fun j => decide (j = 0)) : CreateHashTableResult Nat Nat).destroyedInCleanup
      ≠ [0] :=
  ⟨rfl, rfl, by decide⟩

/-- C5 (amended): if the construction of the bucket list at some index
`i` is the first to fail during `createHashTable`, creation reports
failure (returns NULL), the bucket lists previously created at indices
`0..i-1` are NOT destroyed before the failure is reported (only the
bucket array and the table struct are freed; the created lists leak). -/
theorem C5_amended_theorem (κ ν : Type) (a : CopyFunction κ) (b : FreeFunction κ)
    (c : PrintFunction κ) (d : CopyFunction ν) (e : FreeFunction ν) (f : PrintFunction ν)
    (g : EqualFunction κ κ) (h : TransformIntoNumberFunction κ) (n : Int)
    (alloc : Nat → Bool) (i : Nat) (hi : i < n.toNat) (hfail : alloc i = false)
    (hprev : ∀ j, j < i → alloc j = true) :
    (createHashTable (some a) (some b) (some c) (some d) (some e) (some f) (some g)
        (some h) n alloc : CreateHashTableResult κ ν).result = none ∧
    (createHashTable (some a) (some b) (some c) (some d) (some e) (some f) (some g)
        (some h) n alloc : CreateHashTableResult κ ν).createdBuckets = List.range i ∧
    (createHashTable (some a) (some b) (some c) (some d) (some e) (some f) (some g)
        (some h) n alloc : CreateHashTableResult κ ν).destroyedInCleanup = [] := by
  have hfind : (List.range n.toNat).find? (fun j => !alloc j) = some i := by
    rw [List.range_eq_range']
    exact find?_range'_first (fun j => !alloc j) n.toNat 0 i (Nat.zero_le i) (by omega)
      (by simp [hfail]) (fun j _ hj => by simp [hprev j hj])
  have hfilter : (List.range n.toNat).filter (fun j => decide (j < i)) = List.range i := by
    rw [List.range_eq_range', List.range_eq_range']
    have hsplit : List.range' 0 n.toNat = List.range' 0 i ++ List.range' i (n.toNat - i) := by
      have happ := List.range'_append_1 0 i (n.toNat - i)
      rw [show n.toNat - i + i = n.toNat by omega, Nat.zero_add] at happ
      rw [← happ]
    rw [hsplit, List.filter_append]
    have h1 : (List.range' 0 i).filter (fun j => decide (j < i)) = List.range' 0 i := by
      apply List.filter_eq_self.mpr
      intro j hj
      rw [List.mem_range'_1] at hj
      simp
      omega
    have h2 : (List.range' i (n.toNat - i)).filter (fun j => decide (j < i)) = [] := by
      apply List.filter_eq_nil_iff.mpr
      intro j hj
      rw [List.mem_range'_1] at hj
      simp
      omega
    rw [h1, h2, List.append_nil]
  dsimp only [createHashTable]
  rw [hfind]
  exact ⟨rfl, hfilter, rfl⟩

/-- C5 amended-theorem witness: the concrete two-bucket instance whose
second bucket-list creation fails. -/
theorem C5_amended_witness :
    (createHashTable (some natCopy) (some natFree) (some natPrint) (some natCopy)
        (some natFree) (some natPrint) (some natEqual) (some natHash) 2
        (fun j => decide (j = 0)) : CreateHashTableResult Nat Nat).result = none ∧
    (createHashTable (some natCopy) (some natFree) (some natPrint) (some natCopy)
        (some natFree) (some natPrint) (some natEqual) (some natHash) 2
        (fun j => decide (j = 0)) : CreateHashTableResult Nat Nat).createdBuckets =
      List.range 1 ∧
    (createHashTable (some natCopy) (some natFree) (some natPrint) (some natCopy)
        (some natFree) (some natPrint) (some natEqual) (some natHash) 2
        (fun j => decide (j = 0)) : CreateHashTableResult Nat Nat).destroyedInCleanup
      = [] :=
  C5_amended_theorem Nat Nat natCopy natFree natPrint natCopy natFree natPrint natEqual
    natHash 2 (fun j => decide (j = 0)) 1 (by decide) (by decide)
    (fun j hj => by interval_cases j; decide)

theorem find?_first_match {α : Type} (p : α → Bool) :
    ∀ (l1 : List α) (x : α) (l2 : List α), (∀ y ∈ l1, p y = false) → p x = true →
    (l1 ++ x :: l2).find? p = some x := by
  intro l1
  induction l1 with
  | nil =>
    intro x l2 _ hx
    simp [List.find?, hx]
  | cons y ys ih =>
    intro x l2 h hx
    have hy : p y = false := h y (List.mem_cons_self y ys)
    have ih2 := ih x l2 (fun z hz => h z (List.mem_cons_of_mem y hz)) hx
    simp [List.find?, hy, ih2]

theorem find?_decomp {α : Type} (p : α → Bool) :
    ∀ (l : List α) (x : α), l.find? p = some x →
    ∃ l1 l2, l = l1 ++ x :: l2 ∧ ∀ y ∈ l1, p y = false := by
  intro l
  induction l with
  | nil =>
    intro x h
    simp [List.find?] at h
  | cons y ys ih =>
    intro x h
    by_cases hy : p y = true
    · rw [List.find?_cons_of_pos ys hy] at h
      injection h with h
      exact ⟨[], ys, by rw [h]; rfl, by simp⟩
    · have hyf : p y = false := Bool.eq_false_iff.mpr hy
      rw [List.find?_cons_of_neg ys (by simp [hyf])] at h
      obtain ⟨l1, l2, hsplit, hns⟩ := ih x h
      refine ⟨y :: l1, l2, by rw [hsplit]; rfl, ?_⟩
      intro z hz
      rcases List.mem_cons.mp hz with hz | hz
      · rw [hz]; exact hyf
      · exact hns z hz

/-- C2: on a well-formed hash table whose hash value for `k` is
non-negative and where no stored pair matches the key `k`, a successful
`addToHashTable t k v` (both copies succeeding) makes
`lookupInHashTable t k` return the copy — produced by the value copy
callback — of the stored value, and that result is equal to `v`
whenever the copy callback produces equal values and the equality is
transitive; a subsequent `addToHashTable` with the same key and any
value returns `element_exist` and leaves the table — hence the stored
pair, both key and value — completely unchanged. -/
theorem C2_theorem {κ ν : Type} (t : hashTable_s κ ν) (k k2 : κ) (v v2 v3 : ν)
    (eqv : ν → ν → Bool)
    (hwf : WFTable t)
    (hh : 0 ≤ t.transIntoNumber k)
    (habsent : ∀ b ∈ t.table, ∀ p ∈ b.elements, equalForInnerList p k = false)
    (hck : t.copyKey k = some k2)
    (hcv : t.copyValue v = some v2)
    (hvv : t.copyValue v2 = some v3)
    (heqk : t.equalKey k2 k = true)
    (hpres : ∀ x y : ν, t.copyValue x = some y → eqv y x = true)
    (htrans : ∀ a b c : ν, eqv a b = true → eqv b c = true → eqv a c = true) :
    (addToHashTable (some t) (some k) (some v)).1 = status.success ∧
    lookupInHashTable ((addToHashTable (some t) (some k) (some v)).2) (some k) = some v3 ∧
    eqv v3 v = true ∧
    ∀ v4 : ν,
      addToHashTable ((addToHashTable (some t) (some k) (some v)).2) (some k) (some v4) =
        (status.element_exist, (addToHashTable (some t) (some k) (some v)).2) := by
  have hts : 1 ≤ t.tableSize := hwf.2.1
  have hlen : (t.table.length : Int) = t.tableSize := hwf.1
  have hge : 0 ≤ hashIndex t k := Int.tmod_nonneg _ hh
  have hlt : hashIndex t k < t.tableSize := Int.tmod_lt_of_pos _ (by omega)
  have hltn : (hashIndex t k).toNat < t.table.length := by
    have h1 := Int.toNat_of_nonneg hge
    omega
  have hget : t.table.get? (hashIndex t k).toNat =
      some (t.table.get ⟨(hashIndex t k).toNat, hltn⟩) := List.get?_eq_get hltn
  set bucket := t.table.get ⟨(hashIndex t k).toNat, hltn⟩ with hbdef
  have hbmem : bucket ∈ t.table := List.get_mem t.table _ hltn
  obtain ⟨hbcopy, hbeq, hbcount⟩ := hwf.2.2 bucket hbmem
  have hfind : bucket.elements.find? (fun x => bucket.equal x k) = none := by
    rw [List.find?_eq_none]
    intro p hp
    rw [hbeq]
    simp [habsent bucket hbmem p hp]
  have hsearch : searchByKeyInList (some bucket) (some k) = none := by
    simp [searchByKeyInList, hfind]
  have hpair : createKeyValuePair (some k) (some v) (some t.copyKey) (some t.freeKey)
      (some t.printKey) (some t.copyValue) (some t.freeValue) (some t.printValue)
      (some t.equalKey) =
      some (KeyValuePair_s.mk k2 v2 t.copyKey t.copyValue t.freeKey t.freeValue
        t.printKey t.printValue t.equalKey) := by
    simp [createKeyValuePair, hck, hcv]
  set pair := KeyValuePair_s.mk k2 v2 t.copyKey t.copyValue t.freeKey t.freeValue
    t.printKey t.printValue t.equalKey with hpdef
  have happend : appendNode (some bucket) (some pair) =
      (status.success, some { bucket with
        elements := bucket.elements ++ [pair],
        count_elements := if bucket.elements.isEmpty then 1
          else bucket.count_elements + 1 }) := by
    simp [appendNode, hbcopy, copyKeyValuePairs]
  set bucket2 : LinkedList_s (KeyValuePair_s κ ν) κ := { bucket with
    elements := bucket.elements ++ [pair],
    count_elements := if bucket.elements.isEmpty then 1
      else bucket.count_elements + 1 } with hb2def
  have hadd : addToHashTable (some t) (some k) (some v) =
      (status.success,
       some { t with table := t.table.set (hashIndex t k).toNat bucket2 }) := by
    simp only [addToHashTable, hge, if_true, ite_true, hget, hsearch, hpair, happend]
  set t2 : hashTable_s κ ν :=
    { t with table := t.table.set (hashIndex t k).toNat bucket2 } with ht2def
  have hidx2 : hashIndex t2 k = hashIndex t k := rfl
  have hget2 : t2.table.get? (hashIndex t k).toNat = some bucket2 := by
    show (t.table.set (hashIndex t k).toNat bucket2).get? (hashIndex t k).toNat =
      some bucket2
    rw [List.get?_eq_getElem?]
    exact List.getElem?_set_self hltn
  have hpairmatch : equalForInnerList pair k = true := by
    simp only [equalForInnerList, isEqualKey, hpdef]
    exact heqk
  have hfind2 : bucket2.elements.find? (fun x => bucket2.equal x k) = some pair := by
    have he : bucket2.equal = equalForInnerList := hbeq
    have hel : bucket2.elements = bucket.elements ++ pair :: [] := by
      simp [hb2def]
    rw [hel, he]
    exact find?_first_match _ bucket.elements pair []
      (fun y hy => habsent bucket hbmem y hy) hpairmatch
  have hsearch2 : searchByKeyInList (some bucket2) (some k) = some pair := by
    simp [searchByKeyInList, hfind2, hbcopy, copyKeyValuePairs]
  have hlook : lookupInHashTable (some t2) (some k) = some v3 := by
    simp only [lookupInHashTable, hidx2, hge, if_true, ite_true, hget2, hsearch2]
    simp only [getValue, hpdef]
    exact hvv
  rw [hadd]
  refine ⟨rfl, hlook, htrans v3 v2 v (hpres v2 v3 hvv) (hpres v v2 hcv), ?_⟩
  intro v4
  simp only [addToHashTable, hidx2, hge, if_true, ite_true, hget2, hsearch2]

/-- C2 witness: the concrete single-bucket `Nat` table — insert key 5
with value 42, look it up, then attempt a second insert of 99 under the
same key. -/
theorem C2_witness :
    (addToHashTable (some natTable1) (some 5) (some 42)).1 = status.success ∧
    lookupInHashTable ((addToHashTable (some natTable1) (some 5) (some 42)).2) (some 5) =
      some 42 ∧
    natEqual 42 42 = true ∧
    addToHashTable ((addToHashTable (some natTable1) (some 5) (some 42)).2) (some 5)
        (some 99) =
      (status.element_exist, (addToHashTable (some natTable1) (some 5) (some 42)).2) := by
  have h := C2_theorem natTable1 5 5 42 42 42 natEqual
    (by refine ⟨rfl, by decide, ?_⟩
        intro b hb
        simp [natTable1] at hb
        subst hb
        exact ⟨rfl, rfl, rfl⟩)
    (by decide)
    (by intro b hb p hp
        simp [natTable1] at hb
        subst hb
        simp [freshBucket] at hp)
    rfl rfl rfl (by decide)
    (fun x y hxy => by
      have hx : x = y := Option.some.inj hxy
      subst hx
      simp [natEqual])
    (by intro a b c h1 h2
        simp [natEqual] at h1 h2 ⊢
        omega)
  exact ⟨h.1, h.2.1, h.2.2.1, h.2.2.2 99⟩

theorem lookupInHashTable_none {κ ν : Type} (t : hashTable_s κ ν) (k : κ)
    (b : LinkedList_s (KeyValuePair_s κ ν) κ)
    (hge : 0 ≤ hashIndex t k)
    (hget : t.table.get? (hashIndex t k).toNat = some b)
    (hsearch : searchByKeyInList (some b) (some k) = none) :
    lookupInHashTable (some t) (some k) = none := by
  simp only [lookupInHashTable, hge, if_true, ite_true, hget, hsearch]

theorem searchByKeyInList_none {α β : Type} (l : LinkedList_s α β) (k : β)
    (h : ∀ x ∈ l.elements, l.equal x k = false) :
    searchByKeyInList (some l) (some k) = none := by
  have hfind : l.elements.find? (fun x => l.equal x k) = none := by
    rw [List.find?_eq_none]
    intro p hp
    simp [h p hp]
  simp [searchByKeyInList, hfind]

/-- C4: on a well-formed hash table whose hash value for `k` is
non-negative, whose copy callbacks succeed on `k` and `v`, whose key
equality accepts the stored copy of `k` against `k`, and whose bucket
for `k` holds at most one pair matching `k`:
`addToHashTable t k v` followed by `removeFromHashTable t k` followed by
`lookupInHashTable t k` yields none (NULL) — whether or not the key was
already present before the insert. -/
theorem C4_theorem {κ ν : Type} (t : hashTable_s κ ν) (k k2 : κ) (v v2 : ν)
    (hwf : WFTable t)
    (hh : 0 ≤ t.transIntoNumber k)
    (hck : t.copyKey k = some k2)
    (hcv : t.copyValue v = some v2)
    (heqk : t.equalKey k2 k = true)
    (huniq : ∀ b, t.table.get? (hashIndex t k).toNat = some b →
       b.elements.countP (fun p => equalForInnerList p k) ≤ 1) :
    lookupInHashTable ((removeFromHashTable
      ((addToHashTable (some t) (some k) (some v)).2) (some k)).2) (some k) = none := by
  have hts : 1 ≤ t.tableSize := hwf.2.1
  have hlen : (t.table.length : Int) = t.tableSize := hwf.1
  have hge : 0 ≤ hashIndex t k := Int.tmod_nonneg _ hh
  have hlt : hashIndex t k < t.tableSize := Int.tmod_lt_of_pos _ (by omega)
  have hltn : (hashIndex t k).toNat < t.table.length := by
    have h1 := Int.toNat_of_nonneg hge
    omega
  have hget : t.table.get? (hashIndex t k).toNat =
      some (t.table.get ⟨(hashIndex t k).toNat, hltn⟩) := List.get?_eq_get hltn
  set bucket := t.table.get ⟨(hashIndex t k).toNat, hltn⟩ with hbdef
  have hbmem : bucket ∈ t.table := List.get_mem t.table _ hltn
  obtain ⟨hbcopy, hbeq, hbcount⟩ := hwf.2.2 bucket hbmem
  rcases hfm : bucket.elements.find? (fun x => equalForInnerList x k) with _ | pair0
  · -- key absent: the insert goes in, the remove takes it back out
    have habs : ∀ p ∈ bucket.elements, equalForInnerList p k = false := by
      rw [List.find?_eq_none] at hfm
      intro p hp
      simpa using hfm p hp
    have hfind : bucket.elements.find? (fun x => bucket.equal x k) = none := by
      rw [List.find?_eq_none]
      intro p hp
      rw [hbeq]
      simp [habs p hp]
    have hsearch : searchByKeyInList (some bucket) (some k) = none := by
      simp [searchByKeyInList, hfind]
    have hpair : createKeyValuePair (some k) (some v) (some t.copyKey) (some t.freeKey)
        (some t.printKey) (some t.copyValue) (some t.freeValue) (some t.printValue)
        (some t.equalKey) =
        some (KeyValuePair_s.mk k2 v2 t.copyKey t.copyValue t.freeKey t.freeValue
          t.printKey t.printValue t.equalKey) := by
      simp [createKeyValuePair, hck, hcv]
    set pair := KeyValuePair_s.mk k2 v2 t.copyKey t.copyValue t.freeKey t.freeValue
      t.printKey t.printValue t.equalKey with hpdef
    have happend : appendNode (some bucket) (some pair) =
        (status.success, some { bucket with
          elements := bucket.elements ++ [pair],
          count_elements := if bucket.elements.isEmpty then 1
            else bucket.count_elements + 1 }) := by
      simp [appendNode, hbcopy, copyKeyValuePairs]
    set bucket2 : LinkedList_s (KeyValuePair_s κ ν) κ := { bucket with
      elements := bucket.elements ++ [pair],
      count_elements := if bucket.elements.isEmpty then 1
        else bucket.count_elements + 1 } with hb2def
    have hadd : addToHashTable (some t) (some k) (some v) =
        (status.success,
         some { t with table := t.table.set (hashIndex t k).toNat bucket2 }) := by
      simp only [addToHashTable, hge, if_true, ite_true, hget, hsearch, hpair, happend]
    set t2 : hashTable_s κ ν :=
      { t with table := t.table.set (hashIndex t k).toNat bucket2 } with ht2def
    have hidx2 : hashIndex t2 k = hashIndex t k := rfl
    have hget2 : t2.table.get? (hashIndex t k).toNat = some bucket2 := by
      show (t.table.set (hashIndex t k).toNat bucket2).get? (hashIndex t k).toNat =
        some bucket2
      rw [List.get?_eq_getElem?]
      exact List.getElem?_set_self hltn
    have hpairmatch : equalForInnerList pair k = true := by
      simp only [equalForInnerList, isEqualKey, hpdef]
      exact heqk
    have hdel : deleteNode (some bucket2) (some k) =
        (status.success, some { bucket2 with
          elements := bucket.elements ++ [],
          count_elements := bucket2.count_elements - 1 }) := by
      have hrm : removeFirstBy bucket2.equal k bucket2.elements =
          some (bucket.elements ++ []) := by
        have he : bucket2.equal = equalForInnerList := hbeq
        have hel : bucket2.elements = bucket.elements ++ pair :: [] := by
          simp [hb2def]
        rw [he, hel]
        exact removeFirstBy_first_match equalForInnerList k bucket.elements pair []
          habs hpairmatch
      simp [deleteNode, hrm]
    set bucket3 : LinkedList_s (KeyValuePair_s κ ν) κ := { bucket2 with
      elements := bucket.elements ++ [],
      count_elements := bucket2.count_elements - 1 } with hb3def
    have hrem : removeFromHashTable (some t2) (some k) =
        (status.success,
         some { t2 with table := t2.table.set (hashIndex t k).toNat bucket3 }) := by
      simp only [removeFromHashTable, hidx2, hge, if_true, ite_true, hget2, hdel]
    set t3 : hashTable_s κ ν :=
      { t2 with table := t2.table.set (hashIndex t k).toNat bucket3 } with ht3def
    have hidx3 : hashIndex t3 k = hashIndex t k := rfl
    have hget3 : t3.table.get? (hashIndex t k).toNat = some bucket3 := by
      show ((t.table.set (hashIndex t k).toNat bucket2).set (hashIndex t k).toNat
        bucket3).get? (hashIndex t k).toNat = some bucket3
      rw [List.get?_eq_getElem?]
      exact List.getElem?_set_self (by simpa using hltn)
    have hsearch3 : searchByKeyInList (some bucket3) (some k) = none := by
      refine searchByKeyInList_none bucket3 k ?_
      intro p hp
      have hp2 : p ∈ bucket.elements := by simpa [hb3def] using hp
      rw [show bucket3.equal = equalForInnerList from hbeq]
      simp [habs p hp2]
    rw [hadd]
    show lookupInHashTable ((removeFromHashTable (some t2) (some k)).2) (some k) = none
    rw [hrem]
    show lookupInHashTable (some t3) (some k) = none
    exact lookupInHashTable_none t3 k bucket3 (by rw [hidx3]; exact hge) hget3 hsearch3
  · -- key already present: the insert is rejected, the remove deletes
    -- the unique matching pair
    have hq0 : equalForInnerList pair0 k = true := by
      have := List.find?_some hfm
      simpa using this
    obtain ⟨l1, l2, hsplit, hl1⟩ := find?_decomp _ bucket.elements pair0 hfm
    have hl1f : ∀ y ∈ l1, equalForInnerList y k = false := by
      intro y hy
      simpa using hl1 y hy
    have hl2f : ∀ y ∈ l2, equalForInnerList y k = false := by
      have hcnt := huniq bucket hget
      rw [hsplit] at hcnt
      rw [List.countP_append] at hcnt
      have hcons : List.countP (fun x => equalForInnerList x k) (pair0 :: l2) =
          List.countP (fun x => equalForInnerList x k) l2 + 1 :=
        List.countP_cons_of_pos _ _ hq0
      rw [hcons] at hcnt
      have hz : l2.countP (fun p => equalForInnerList p k) = 0 := by omega
      intro y hy
      have := List.countP_eq_zero.mp hz y hy
      simpa using this
    have hfind : bucket.elements.find? (fun x => bucket.equal x k) = some pair0 := by
      rw [hsplit, hbeq]
      exact find?_first_match _ l1 pair0 l2 hl1f hq0
    have hsearch : searchByKeyInList (some bucket) (some k) = some pair0 := by
      simp [searchByKeyInList, hfind, hbcopy, copyKeyValuePairs]
    have hadd : addToHashTable (some t) (some k) (some v) =
        (status.element_exist, some t) := by
      simp only [addToHashTable, hge, if_true, ite_true, hget, hsearch]
    have hdel : deleteNode (some bucket) (some k) =
        (status.success, some { bucket with
          elements := l1 ++ l2,
          count_elements := bucket.count_elements - 1 }) := by
      have hrm : removeFirstBy bucket.equal k bucket.elements = some (l1 ++ l2) := by
        rw [hbeq, hsplit]
        exact removeFirstBy_first_match equalForInnerList k l1 pair0 l2 hl1f hq0
      simp [deleteNode, hrm]
    set bucket3 : LinkedList_s (KeyValuePair_s κ ν) κ := { bucket with
      elements := l1 ++ l2,
      count_elements := bucket.count_elements - 1 } with hb3def
    have hrem : removeFromHashTable (some t) (some k) =
        (status.success,
         some { t with table := t.table.set (hashIndex t k).toNat bucket3 }) := by
      simp only [removeFromHashTable, hge, if_true, ite_true, hget, hdel]
    set t3 : hashTable_s κ ν :=
      { t with table := t.table.set (hashIndex t k).toNat bucket3 } with ht3def
    have hidx3 : hashIndex t3 k = hashIndex t k := rfl
    have hget3 : t3.table.get? (hashIndex t k).toNat = some bucket3 := by
      show (t.table.set (hashIndex t k).toNat bucket3).get? (hashIndex t k).toNat =
        some bucket3
      rw [List.get?_eq_getElem?]
      exact List.getElem?_set_self hltn
    have hsearch3 : searchByKeyInList (some bucket3) (some k) = none := by
      refine searchByKeyInList_none bucket3 k ?_
      intro p hp
      have hp2 : p ∈ l1 ++ l2 := by simpa [hb3def] using hp
      rw [show bucket3.equal = equalForInnerList from hbeq]
      rcases List.mem_append.mp hp2 with h | h
      · simp [hl1f p h]
      · simp [hl2f p h]
    rw [hadd]
    show lookupInHashTable ((removeFromHashTable (some t) (some k)).2) (some k) = none
    rw [hrem]
    show lookupInHashTable (some t3) (some k) = none
    exact lookupInHashTable_none t3 k bucket3 (by rw [hidx3]; exact hge) hget3 hsearch3

/-- C4 witness: the concrete single-bucket `Nat` table — insert key 5
with value 42, remove key 5, then look it up. -/
theorem C4_witness :
    lookupInHashTable ((removeFromHashTable
      ((addToHashTable (some natTable1) (some 5) (some 42)).2) (some 5)).2) (some 5) =
      none :=
  C4_theorem natTable1 5 5 42 42
    (by refine ⟨rfl, by decide, ?_⟩
        intro b hb
        simp [natTable1] at hb
        subst hb
        exact ⟨rfl, rfl, rfl⟩)
    (by decide) rfl rfl (by decide)
    (by intro b hb
        have hidx : (hashIndex natTable1 5).toNat = 0 := by decide
        rw [hidx] at hb
        simp [natTable1] at hb
        rw [← hb]
        simp [freshBucket])

theorem appendNode_copy_some {α β : Type} (l : LinkedList_s α β) (e : α) (c : α)
    (hc : l.copyElement e = some c) :
    appendNode (some l) (some e) =
      (status.success, some { l with
        elements := l.elements ++ [c],
        count_elements := if l.elements.isEmpty then 1 else l.count_elements + 1 }) := by
  simp [appendNode, hc]

theorem appendNode_copy_none {α β : Type} (l : LinkedList_s α β) (e : α)
    (hc : l.copyElement e = none) :
    appendNode (some l) (some e) = (status.Memory_Problem, some l) := by
  simp [appendNode, hc]

theorem searchByKeyInList_some_find {α β : Type} (l : LinkedList_s α β) (k : β) (y : α)
    (h : searchByKeyInList (some l) (some k) = some y) :
    ∃ x, l.elements.find? (fun e => l.equal e k) = some x := by
  rcases hf : l.elements.find? (fun e => l.equal e k) with _ | x
  · have hn : searchByKeyInList (some l) (some k) = none := by
      simp [searchByKeyInList, hf]
    rw [hn] at h
    exact absurd h (by simp)
  · exact ⟨x, rfl⟩

theorem replaceFirstValue_first_match {κ ν : Type}
    (eq : EqualFunction (KeyValuePair_s κ ν) κ) (k : κ) (nv : ν) :
    ∀ (l1 : List (KeyValuePair_s κ ν)) (x : KeyValuePair_s κ ν)
      (l2 : List (KeyValuePair_s κ ν)),
      (∀ y ∈ l1, eq y k = false) → eq x k = true →
      replaceFirstValue eq k nv (l1 ++ x :: l2) =
        l1 ++ ({ x with value := nv } : KeyValuePair_s κ ν) :: l2 := by
  intro l1
  induction l1 with
  | nil =>
    intro x l2 _ hx
    simp [replaceFirstValue, hx]
  | cons y ys ih =>
    intro x l2 h hx
    have hy : eq y k = false := h y (List.mem_cons_self y ys)
    have ih2 := ih x l2 (fun z hz => h z (List.mem_cons_of_mem y hz)) hx
    simp [replaceFirstValue, hy, ih2]

theorem MultiTableInv_set {κ ν : Type} (t : hashTable_s κ (LinkedList_s ν ν))
    (hinv : MultiTableInv t) (i : Nat)
    (b2 : LinkedList_s (KeyValuePair_s κ (LinkedList_s ν ν)) κ)
    (hwf2 : WFBucket b2) (hp2 : ∀ p ∈ b2.elements, MultiPairInv p) :
    MultiTableInv { t with table := t.table.set i b2 } := by
  refine ⟨hinv.1, ?_⟩
  intro b hb
  rcases List.mem_or_eq_of_mem_set hb with h | h
  · exact hinv.2 b h
  · subst h
    exact ⟨hwf2, hp2⟩

theorem lookup_some_inv {κ ν : Type} (t : hashTable_s κ (LinkedList_s ν ν)) (k : κ)
    (L : LinkedList_s ν ν) (hinv : MultiTableInv t)
    (hlk : lookupInHashTable (some t) (some k) = some L) :
    0 ≤ hashIndex t k ∧
    ∃ bucket, t.table.get? (hashIndex t k).toNat = some bucket ∧
      ∃ pair, pair ∈ bucket.elements ∧
        bucket.elements.find? (fun x => bucket.equal x k) = some pair ∧
        L = pair.value := by
  by_cases hge : 0 ≤ hashIndex t k
  · refine ⟨hge, ?_⟩
    rcases hget : t.table.get? (hashIndex t k).toNat with _ | bucket
    · have hn : lookupInHashTable (some t) (some k) = none := by
        simp only [lookupInHashTable, hge, if_true, ite_true, hget]
      rw [hn] at hlk
      exact absurd hlk (by simp)
    · refine ⟨bucket, rfl, ?_⟩
      have hbmem : bucket ∈ t.table := List.get?_mem hget
      obtain ⟨⟨hbcopy, hbeq, hbcount⟩, hpairs⟩ := hinv.2 bucket hbmem
      rcases hf : bucket.elements.find? (fun x => bucket.equal x k) with _ | pair
      · have hs : searchByKeyInList (some bucket) (some k) = none := by
          simp [searchByKeyInList, hf]
        have hn : lookupInHashTable (some t) (some k) = none := by
          simp only [lookupInHashTable, hge, if_true, ite_true, hget, hs]
        rw [hn] at hlk
        exact absurd hlk (by simp)
      · have hpm : pair ∈ bucket.elements := List.mem_of_find?_eq_some hf
        have hcv := (hpairs pair hpm).1
        have hs : searchByKeyInList (some bucket) (some k) = some pair := by
          simp [searchByKeyInList, hf, hbcopy, copyKeyValuePairs]
        have hl2 : lookupInHashTable (some t) (some k) = some pair.value := by
          simp only [lookupInHashTable, hge, if_true, ite_true, hget, hs, getValue,
            hcv, copyLinkListVal]
        rw [hl2] at hlk
        have hL : pair.value = L := by injection hlk
        refine ⟨pair, hpm, rfl, hL.symm⟩
  · have hn : lookupInHashTable (some t) (some k) = none := by
      simp only [lookupInHashTable, if_neg hge]
    rw [hn] at hlk
    exact absurd hlk (by simp)

theorem lookup_none_find_none {κ ν : Type} (t : hashTable_s κ (LinkedList_s ν ν)) (k : κ)
    (bucket : LinkedList_s (KeyValuePair_s κ (LinkedList_s ν ν)) κ)
    (hinv : MultiTableInv t) (hge : 0 ≤ hashIndex t k)
    (hget : t.table.get? (hashIndex t k).toNat = some bucket)
    (hlk : lookupInHashTable (some t) (some k) = none) :
    bucket.elements.find? (fun x => bucket.equal x k) = none := by
  rcases hf : bucket.elements.find? (fun x => bucket.equal x k) with _ | pair
  · rfl
  · have hbmem : bucket ∈ t.table := List.get?_mem hget
    obtain ⟨⟨hbcopy, hbeq, hbcount⟩, hpairs⟩ := hinv.2 bucket hbmem
    have hpm : pair ∈ bucket.elements := List.mem_of_find?_eq_some hf
    have hcv := (hpairs pair hpm).1
    have hs : searchByKeyInList (some bucket) (some k) = some pair := by
      simp [searchByKeyInList, hf, hbcopy, copyKeyValuePairs]
    have hl2 : lookupInHashTable (some t) (some k) = some pair.value := by
      simp only [lookupInHashTable, hge, if_true, ite_true, hget, hs, getValue,
        hcv, copyLinkListVal]
    rw [hl2] at hlk
    exact absurd hlk (by simp)

theorem count_sync_append {α β : Type} (L : LinkedList_s α β) (c : α)
    (hsync : L.count_elements = (L.elements.length : Int)) :
    (if L.elements.isEmpty then (1 : Int) else L.count_elements + 1) =
      ((L.elements ++ [c]).length : Int) := by
  by_cases hemp : L.elements.isEmpty
  · rw [if_pos hemp, List.isEmpty_iff.mp hemp]
    simp
  · rw [if_neg hemp, hsync]
    rw [show (L.elements ++ [c]).length = L.elements.length + 1 by simp]
    push_cast
    ring

theorem MultiTableInv_add {κ ν : Type} (mt : MultiHashTable_s κ ν) (k : κ) (v : ν)
    (hinv : MultiTableInv mt.HashTable) :
    ∀ (st : status) (mt2 : MultiHashTable_s κ ν),
      addToMultiValueHashTable (some mt) (some k) (some v) = (st, some mt2) →
      MultiTableInv mt2.HashTable := by
  intro st mt2 heq
  rcases hlk : lookupInHashTable (some mt.HashTable) (some k) with _ | L
  · -- key absent
    rcases hcv : mt.copyValue v with _ | v2
    · -- the value copy fails: Memory_Problem, table unchanged
      have heqn : addToMultiValueHashTable (some mt) (some k) (some v) =
          (status.Memory_Problem, some mt) := by
        simp [addToMultiValueHashTable, hlk, createLinkedList, appendNode, hcv]
      rw [heqn] at heq
      injection heq with h1 h2
      injection h2 with h2
      rw [← h2]
      exact hinv
    · by_cases hge : 0 ≤ hashIndex mt.HashTable k
      · rcases hget : mt.HashTable.table.get? (hashIndex mt.HashTable k).toNat
          with _ | bucket
        all_goals have hget' := hget
        all_goals rw [List.get?_eq_getElem?] at hget'
        · -- out-of-range bucket: the underlying insert is stuck, table unchanged
          have heqn : addToMultiValueHashTable (some mt) (some k) (some v) =
              (status.success, some mt) := by
            simp [addToMultiValueHashTable, hlk, createLinkedList, appendNode, hcv,
              addToHashTable, hge, hget']
          rw [heqn] at heq
          injection heq with h1 h2
          injection h2 with h2
          rw [← h2]
          exact hinv
        · have hbmem : bucket ∈ mt.HashTable.table := List.get?_mem hget
          obtain ⟨⟨hbcopy, hbeq, hbcount⟩, hpairs⟩ := hinv.2 bucket hbmem
          have hfind := lookup_none_find_none mt.HashTable k bucket hinv hge hget hlk
          have hs : searchByKeyInList (some bucket) (some k) = none := by
            simp [searchByKeyInList, hfind]
          rcases hck : mt.HashTable.copyKey k with _ | k2
          · -- the key copy fails: Memory_Problem, table unchanged
            have heqn : addToMultiValueHashTable (some mt) (some k) (some v) =
                (status.Memory_Problem, some mt) := by
              simp [addToMultiValueHashTable, hlk, createLinkedList, appendNode, hcv,
                addToHashTable, hge, hget', hs, createKeyValuePair, hck]
            rw [heqn] at heq
            injection heq with h1 h2
            injection h2 with h2
            rw [← h2]
            exact hinv
          · -- the pair goes in with a fresh one-element value list
            have hcvt : mt.HashTable.copyValue = copyLinkListVal := hinv.1
            have heqn : addToMultiValueHashTable (some mt) (some k) (some v) =
                (status.success, some
                  { mt with
                    HashTable :=
                      { mt.HashTable with
                        table := mt.HashTable.table.set (hashIndex mt.HashTable k).toNat
                          ({ bucket with
                            elements := bucket.elements ++
                              [KeyValuePair_s.mk k2
                                (LinkedList_s.mk mt.copyValue mt.freeValue mt.printValue
                                  mt.equalVal [v2] 1)
                                mt.HashTable.copyKey mt.HashTable.copyValue
                                mt.HashTable.freeKey mt.HashTable.freeValue
                                mt.HashTable.printKey mt.HashTable.printValue
                                mt.HashTable.equalKey],
                            count_elements := if bucket.elements.isEmpty then 1
                              else bucket.count_elements + 1 }) } }) := by
              simp [addToMultiValueHashTable, hlk, createLinkedList, appendNode, hcv,
                addToHashTable, hge, hget', hs, createKeyValuePair, hck, hcvt,
                copyLinkListVal, hbcopy, copyKeyValuePairs]
            rw [heqn] at heq
            injection heq with h1 h2
            injection h2 with h2
            rw [← h2]
            refine MultiTableInv_set mt.HashTable hinv _ _ ⟨hbcopy, hbeq, ?_⟩ ?_
            · exact count_sync_append bucket _ hbcount
            · intro p hp
              rcases List.mem_append.mp hp with h | h
              · exact hpairs p h
              · have hp2 : p = KeyValuePair_s.mk k2
                    (LinkedList_s.mk mt.copyValue mt.freeValue mt.printValue
                      mt.equalVal [v2] 1)
                    mt.HashTable.copyKey mt.HashTable.copyValue
                    mt.HashTable.freeKey mt.HashTable.freeValue
                    mt.HashTable.printKey mt.HashTable.printValue
                    mt.HashTable.equalKey := by simpa using h
                rw [hp2]
                exact ⟨hcvt, by simp, by simp⟩
      · -- negative bucket index: the underlying insert is stuck, table unchanged
        have heqn : addToMultiValueHashTable (some mt) (some k) (some v) =
            (status.success, some mt) := by
          simp [addToMultiValueHashTable, hlk, createLinkedList, appendNode, hcv,
            addToHashTable, hge]
        rw [heqn] at heq
        injection heq with h1 h2
        injection h2 with h2
        rw [← h2]
        exact hinv
  · -- key present: append to the aliased per-key list
    obtain ⟨hge, bucket, hget, pair, hpm, hf, hLpv⟩ :=
      lookup_some_inv mt.HashTable k L hinv hlk
    have hget' := hget
    rw [List.get?_eq_getElem?] at hget'
    have hbmem : bucket ∈ mt.HashTable.table := List.get?_mem hget
    obtain ⟨⟨hbcopy, hbeq, hbcount⟩, hpairs⟩ := hinv.2 bucket hbmem
    obtain ⟨hpcv, hpne, hpcount⟩ := hpairs pair hpm
    rcases hcv : L.copyElement v with _ | v2
    · have heqn : addToMultiValueHashTable (some mt) (some k) (some v) =
          (status.Memory_Problem, some mt) := by
        simp [addToMultiValueHashTable, hlk, appendNode, hcv]
      rw [heqn] at heq
      injection heq with h1 h2
      injection h2 with h2
      rw [← h2]
      exact hinv
    · obtain ⟨l1, l2, hsplit, hl1⟩ := find?_decomp _ bucket.elements pair hf
      have hl1f : ∀ y ∈ l1, bucket.equal y k = false := by
        intro y hy
        simpa using hl1 y hy
      have hfx : bucket.equal pair k = true := by
        have := List.find?_some hf
        simpa using this
      have happ : appendNode (some L) (some v) =
          (status.success, some { L with
            elements := L.elements ++ [v2],
            count_elements := if L.elements.isEmpty then 1
              else L.count_elements + 1 }) := appendNode_copy_some L v v2 hcv
      have hrepl : replaceFirstValue bucket.equal k
          ({ L with
            elements := L.elements ++ [v2],
            count_elements := if L.elements.isEmpty then 1
              else L.count_elements + 1 }) bucket.elements =
          l1 ++
            ({ pair with
              value :=
                { L with
                  elements := L.elements ++ [v2],
                  count_elements := if L.elements.isEmpty then 1
                    else L.count_elements + 1 } } :
              KeyValuePair_s κ (LinkedList_s ν ν)) :: l2 := by
        rw [hsplit]
        exact replaceFirstValue_first_match bucket.equal k _ l1 pair l2 hl1f hfx
      have heqn : addToMultiValueHashTable (some mt) (some k) (some v) =
          (status.success, some
            { mt with
              HashTable :=
                { mt.HashTable with
                  table := mt.HashTable.table.set (hashIndex mt.HashTable k).toNat
                    ({ bucket with
                      elements := l1 ++
                        ({ pair with
                          value :=
                            { L with
                              elements := L.elements ++ [v2],
                              count_elements := if L.elements.isEmpty then 1
                                else L.count_elements + 1 } } :
                          KeyValuePair_s κ (LinkedList_s ν ν)) :: l2 }) } }) := by
        simp [addToMultiValueHashTable, hlk, happ, updateAliasedValue, hge, hget', hrepl]
      rw [heqn] at heq
      injection heq with h1 h2
      injection h2 with h2
      rw [← h2]
      refine MultiTableInv_set mt.HashTable hinv _ _ ⟨hbcopy, hbeq, ?_⟩ ?_
      · rw [hbcount, hsplit]
        simp
      · intro p hp
        rcases List.mem_append.mp hp with h | h
        · refine hpairs p ?_
          rw [hsplit]
          exact List.mem_append.mpr (Or.inl h)
        · rcases List.mem_cons.mp h with h | h
          · rw [h]
            refine ⟨hpcv, by simp, ?_⟩
            show (if L.elements.isEmpty then (1 : Int) else L.count_elements + 1) =
              ((L.elements ++ [v2]).length : Int)
            exact count_sync_append L v2 (hLpv ▸ hpcount)
          · refine hpairs p ?_
            rw [hsplit]
            exact List.mem_append.mpr (Or.inr (List.mem_cons.mpr (Or.inr h)))

/-- `hashIndex` reads only `transIntoNumber` and `tableSize`, so writing a
bucket back into the table leaves the index computation unchanged. -/
theorem hashIndex_table_set {κ ν : Type} (t : hashTable_s κ ν) (i : Nat)
    (b : LinkedList_s (KeyValuePair_s κ ν) κ) (k : κ) :
    hashIndex { t with table := t.table.set i b } k = hashIndex t k := rfl

theorem MultiTableInv_remove {κ ν : Type} (mt : MultiHashTable_s κ ν) (k : κ) (v : ν)
    (hinv : MultiTableInv mt.HashTable) :
    ∀ (st : status) (mt2 : MultiHashTable_s κ ν),
      removeFromMultiValueHashTable (some mt) (some k) (some v) = (st, some mt2) →
      MultiTableInv mt2.HashTable := by
  intro st mt2 heq
  rcases hlk : lookupInHashTable (some mt.HashTable) (some k) with _ | L
  · -- key absent: no_element, table unchanged
    have heqn : removeFromMultiValueHashTable (some mt) (some k) (some v) =
        (status.no_element, some mt) := by
      simp [removeFromMultiValueHashTable, hlk]
    rw [heqn] at heq
    injection heq with h1 h2
    injection h2 with h2
    rw [← h2]
    exact hinv
  · obtain ⟨hge, bucket, hget, pair, hpm, hf, hLpv⟩ :=
      lookup_some_inv mt.HashTable k L hinv hlk
    have hget' := hget
    rw [List.get?_eq_getElem?] at hget'
    obtain ⟨hltn, -⟩ := List.get?_eq_some.mp hget
    have hbmem : bucket ∈ mt.HashTable.table := List.get?_mem hget
    obtain ⟨⟨hbcopy, hbeq, hbcount⟩, hpairs⟩ := hinv.2 bucket hbmem
    obtain ⟨hpcv, hpne, hpcount⟩ := hpairs pair hpm
    rcases hsv : searchByKeyInList (some L) (some v) with _ | y
    · -- value not found in the per-key list: no_element, table unchanged
      have heqn : removeFromMultiValueHashTable (some mt) (some k) (some v) =
          (status.no_element, some mt) := by
        simp [removeFromMultiValueHashTable, hlk, hsv]
      rw [heqn] at heq
      injection heq with h1 h2
      injection h2 with h2
      rw [← h2]
      exact hinv
    · obtain ⟨x0, hfv⟩ := searchByKeyInList_some_find L v y hsv
      obtain ⟨m1, m2, hmsplit, hm1⟩ := find?_decomp _ L.elements x0 hfv
      have hm1f : ∀ z ∈ m1, L.equal z v = false := by
        intro z hz
        simpa using hm1 z hz
      have hx0 : L.equal x0 v = true := by
        have := List.find?_some hfv
        simpa using this
      have hrm : removeFirstBy L.equal v L.elements = some (m1 ++ m2) := by
        rw [hmsplit]
        exact removeFirstBy_first_match L.equal v m1 x0 m2 hm1f hx0
      obtain ⟨l1, l2, hsplit, hl1⟩ := find?_decomp _ bucket.elements pair hf
      have hl1f : ∀ y2 ∈ l1, bucket.equal y2 k = false := by
        intro y2 hy2
        simpa using hl1 y2 hy2
      have hfx : bucket.equal pair k = true := by
        have := List.find?_some hf
        simpa using this
      have hrepl : replaceFirstValue bucket.equal k
          ({ L with
            elements := m1 ++ m2,
            count_elements := L.count_elements - 1 }) bucket.elements =
          l1 ++
            ({ pair with
              value :=
                { L with
                  elements := m1 ++ m2,
                  count_elements := L.count_elements - 1 } } :
              KeyValuePair_s κ (LinkedList_s ν ν)) :: l2 := by
        rw [hsplit]
        exact replaceFirstValue_first_match bucket.equal k _ l1 pair l2 hl1f hfx
      have hlensplit : L.count_elements = ((m1.length + m2.length : Nat) : Int) + 1 := by
        have hLc : L.count_elements = (L.elements.length : Int) := by
          rw [hLpv]
          exact hpcount
        rw [hLc, hmsplit, List.length_append, List.length_cons]
        push_cast
        ring
      by_cases hz : L.count_elements - 1 = 0
      · -- the list became empty: the key is evicted from the underlying table
        have hfx2 : bucket.equal
            ({ pair with
              value :=
                { L with
                  elements := m1 ++ m2,
                  count_elements := L.count_elements - 1 } } :
              KeyValuePair_s κ (LinkedList_s ν ν)) k = true := by
          rw [hbeq] at hfx ⊢
          exact hfx
        have hrm2 : removeFirstBy bucket.equal k
            (l1 ++
              ({ pair with
                value :=
                  { L with
                    elements := m1 ++ m2,
                    count_elements := L.count_elements - 1 } } :
                KeyValuePair_s κ (LinkedList_s ν ν)) :: l2) = some (l1 ++ l2) :=
          removeFirstBy_first_match bucket.equal k l1 _ l2 hl1f hfx2
        rw [hz] at hrepl hrm2
        have heqn : removeFromMultiValueHashTable (some mt) (some k) (some v) =
            (status.success, some
              { mt with
                HashTable :=
                  { mt.HashTable with
                    table := mt.HashTable.table.set (hashIndex mt.HashTable k).toNat
                      ({ bucket with
                        elements := l1 ++ l2,
                        count_elements := bucket.count_elements - 1 }) } }) := by
          simp [removeFromMultiValueHashTable, hlk, hsv, deleteNode, hrm,
            updateAliasedValue, hge, hget', hrepl, getLengthList, hz,
            removeFromHashTable, hashIndex_table_set, hltn, hrm2, List.set_set,
            List.getElem?_set_eq_of_lt]
        rw [heqn] at heq
        injection heq with h1 h2
        injection h2 with h2
        rw [← h2]
        refine MultiTableInv_set mt.HashTable hinv _ _ ⟨hbcopy, hbeq, ?_⟩ ?_
        · show bucket.count_elements - 1 = (((l1 ++ l2).length : Nat) : Int)
          rw [hbcount, hsplit]
          push_cast [List.length_append, List.length_cons]
          ring
        · intro p hp
          rcases List.mem_append.mp hp with h | h
          · refine hpairs p ?_
            rw [hsplit]
            exact List.mem_append.mpr (Or.inl h)
          · refine hpairs p ?_
            rw [hsplit]
            exact List.mem_append.mpr (Or.inr (List.mem_cons.mpr (Or.inr h)))
      · -- values remain: the shorter list stays in place
        have heqn : removeFromMultiValueHashTable (some mt) (some k) (some v) =
            (status.success, some
              { mt with
                HashTable :=
                  { mt.HashTable with
                    table := mt.HashTable.table.set (hashIndex mt.HashTable k).toNat
                      ({ bucket with
                        elements := l1 ++
                          ({ pair with
                            value :=
                              { L with
                                elements := m1 ++ m2,
                                count_elements := L.count_elements - 1 } } :
                            KeyValuePair_s κ (LinkedList_s ν ν)) :: l2 }) } }) := by
          simp [removeFromMultiValueHashTable, hlk, hsv, deleteNode, hrm,
            updateAliasedValue, hge, hget', hrepl, getLengthList, hz]
        rw [heqn] at heq
        injection heq with h1 h2
        injection h2 with h2
        rw [← h2]
        refine MultiTableInv_set mt.HashTable hinv _ _ ⟨hbcopy, hbeq, ?_⟩ ?_
        · rw [hbcount, hsplit]
          simp
        · intro p hp
          rcases List.mem_append.mp hp with h | h
          · refine hpairs p ?_
            rw [hsplit]
            exact List.mem_append.mpr (Or.inl h)
          · rcases List.mem_cons.mp h with h | h
            · rw [h]
              refine ⟨hpcv, ?_, ?_⟩
              · show m1 ++ m2 ≠ []
                intro hnil
                obtain ⟨h1, h2⟩ := List.append_eq_nil.mp hnil
                apply hz
                rw [hlensplit, h1, h2]
                simp
              · show L.count_elements - 1 = (((m1 ++ m2).length : Nat) : Int)
                rw [List.length_append]
                push_cast
                omega
            · refine hpairs p ?_
              rw [hsplit]
              exact List.mem_append.mpr (Or.inr (List.mem_cons.mpr (Or.inr h)))

/-- A successfully created multi-value hash table satisfies the
multi-value invariant: the underlying table's value copy callback is the
pass-through `copyLinkListVal` and every bucket is a fresh, empty,
well-formed list. -/
theorem MultiTableInv_create {κ ν : Type} (ck : CopyFunction κ) (fk : FreeFunction κ)
    (pk : PrintFunction κ) (cv : CopyFunction ν) (fv : FreeFunction ν)
    (pv : PrintFunction ν) (ek : EqualFunction κ κ) (ev : EqualFunction ν ν)
    (tn : TransformIntoNumberFunction κ) (n : Int) (mt : MultiHashTable_s κ ν)
    (hc : createMultiValueHashTable (some ck) (some fk) (some pk) (some cv) (some fv)
        (some pv) (some ek) (some ev) (some tn) n (fun _ => true) = some mt) :
    MultiTableInv mt.HashTable := by
  simp only [createMultiValueHashTable, createHashTable_allocTrue, Option.some.injEq] at hc
  subst hc
  refine ⟨rfl, ?_⟩
  intro b hb
  rw [List.mem_map] at hb
  obtain ⟨i, -, hbe⟩ := hb
  subst hbe
  exact ⟨⟨rfl, rfl, rfl⟩, fun p hp => absurd hp (List.not_mem_nil p)⟩

/-- One `applyMultiOp` step preserves the multi-value invariant. -/
theorem MultiTableInv_applyOp {κ ν : Type} (mt : MultiHashTable_s κ ν)
    (op : MultiOp κ ν) (hinv : MultiTableInv mt.HashTable) :
    MultiTableInv (applyMultiOp mt op).HashTable := by
  cases op with
  | add k v =>
      rcases hadd : addToMultiValueHashTable (some mt) (some k) (some v) with ⟨st, omt⟩
      cases omt with
      | none =>
          have he : applyMultiOp mt (MultiOp.add k v) = mt := by
            simp [applyMultiOp, hadd]
          rw [he]
          exact hinv
      | some mt2 =>
          have he : applyMultiOp mt (MultiOp.add k v) = mt2 := by
            simp [applyMultiOp, hadd]
          rw [he]
          exact MultiTableInv_add mt k v hinv st mt2 hadd
  | remove k v =>
      rcases hrem : removeFromMultiValueHashTable (some mt) (some k) (some v) with ⟨st, omt⟩
      cases omt with
      | none =>
          have he : applyMultiOp mt (MultiOp.remove k v) = mt := by
            simp [applyMultiOp, hrem]
          rw [he]
          exact hinv
      | some mt2 =>
          have he : applyMultiOp mt (MultiOp.remove k v) = mt2 := by
            simp [applyMultiOp, hrem]
          rw [he]
          exact MultiTableInv_remove mt k v hinv st mt2 hrem

/-- Every finite sequence of multi-value operations preserves the
multi-value invariant. -/
theorem MultiTableInv_run {κ ν : Type} (ops : List (MultiOp κ ν)) :
    ∀ (mt : MultiHashTable_s κ ν), MultiTableInv mt.HashTable →
      MultiTableInv (runMultiOps mt ops).HashTable := by
  induction ops with
  | nil =>
      intro mt h
      exact h
  | cons op rest ih =>
      intro mt h
      have he : runMultiOps mt (op :: rest) = runMultiOps (applyMultiOp mt op) rest := rfl
      rw [he]
      exact ih (applyMultiOp mt op) (MultiTableInv_applyOp mt op h)

/-- Under the multi-value invariant, a multi-value lookup is either
`none` or a handle to a non-empty per-key list. -/
theorem multiLookup_none_or_nonempty {κ ν : Type} (mt : MultiHashTable_s κ ν) (k : κ)
    (hinv : MultiTableInv mt.HashTable) :
    lookupInMultiValueHashTable (some mt) (some k) = none ∨
      ∃ L, lookupInMultiValueHashTable (some mt) (some k) = some L ∧ L.elements ≠ [] := by
  rcases hlk : lookupInHashTable (some mt.HashTable) (some k) with _ | L
  · left
    simp [lookupInMultiValueHashTable, hlk]
  · right
    refine ⟨L, by simp [lookupInMultiValueHashTable, hlk], ?_⟩
    obtain ⟨hge, bucket, hget, pair, hpm, hf, hLpv⟩ :=
      lookup_some_inv mt.HashTable k L hinv hlk
    have hbmem : bucket ∈ mt.HashTable.table := List.get?_mem hget
    obtain ⟨-, hpairs⟩ := hinv.2 bucket hbmem
    obtain ⟨-, hpne, -⟩ := hpairs pair hpm
    rw [hLpv]
    exact hpne

/-- Removing the sole remaining value for a key evicts the key from the
underlying hash table: the remove reports `success` and a subsequent
lookup of the key in the underlying table returns `none`, provided the
key occurs at most once in its bucket (which `addToHashTable`'s
duplicate check maintains for every reachable table). -/
theorem remove_sole_evicts {κ ν : Type} (mt : MultiHashTable_s κ ν) (k : κ) (v : ν)
    (L : LinkedList_s ν ν) (hinv : MultiTableInv mt.HashTable)
    (hlkm : lookupInMultiValueHashTable (some mt) (some k) = some L)
    (hsole : L.elements.length = 1)
    (hvy : ∃ y, searchByKeyInList (some L) (some v) = some y)
    (huniq : ∀ bucket,
      mt.HashTable.table.get? (hashIndex mt.HashTable k).toNat = some bucket →
      bucket.elements.countP (fun q => bucket.equal q k) ≤ 1) :
    ∃ mt2, removeFromMultiValueHashTable (some mt) (some k) (some v) =
        (status.success, some mt2) ∧
      lookupInMultiValueHashTable (some mt2) (some k) = none := by
  obtain ⟨y, hsv⟩ := hvy
  have hlk : lookupInHashTable (some mt.HashTable) (some k) = some L := by
    simpa [lookupInMultiValueHashTable] using hlkm
  obtain ⟨hge, bucket, hget, pair, hpm, hf, hLpv⟩ :=
    lookup_some_inv mt.HashTable k L hinv hlk
  have hget' := hget
  rw [List.get?_eq_getElem?] at hget'
  obtain ⟨hltn, -⟩ := List.get?_eq_some.mp hget
  have hbmem : bucket ∈ mt.HashTable.table := List.get?_mem hget
  obtain ⟨⟨hbcopy, hbeq, hbcount⟩, hpairs⟩ := hinv.2 bucket hbmem
  obtain ⟨hpcv, hpne, hpcount⟩ := hpairs pair hpm
  obtain ⟨x0, hfv⟩ := searchByKeyInList_some_find L v y hsv
  have hx0 : L.equal x0 v = true := by
    have := List.find?_some hfv
    simpa using this
  obtain ⟨m1, m2, hmsplit, hm1⟩ := find?_decomp _ L.elements x0 hfv
  have hm1e : m1 = [] := by
    have hlc := congrArg List.length hmsplit
    rw [hsole] at hlc
    simp [List.length_append] at hlc
    exact List.length_eq_zero.mp (by omega)
  subst hm1e
  have hm2e : m2 = [] := by
    have hlc := congrArg List.length hmsplit
    rw [hsole] at hlc
    simp [List.length_append] at hlc
    exact hlc
  subst hm2e
  have hrm : removeFirstBy L.equal v L.elements = some [] := by
    rw [hmsplit]
    simp [removeFirstBy, hx0]
  obtain ⟨l1, l2, hsplit, hl1⟩ := find?_decomp _ bucket.elements pair hf
  have hl1f : ∀ z ∈ l1, bucket.equal z k = false := by
    intro z hz
    simpa using hl1 z hz
  have hfx : bucket.equal pair k = true := by
    have := List.find?_some hf
    simpa using this
  have hl2f : ∀ z ∈ l2, bucket.equal z k = false := by
    intro z hz
    by_contra hne
    have hzt : bucket.equal z k = true := by
      cases hb2 : bucket.equal z k
      · exact absurd hb2 hne
      · rfl
    have h1 : 0 < List.countP (fun q => bucket.equal q k) l2 :=
      List.countP_pos_iff.mpr ⟨z, hz, hzt⟩
    have h2 : List.countP (fun q => bucket.equal q k) (pair :: l2) =
        List.countP (fun q => bucket.equal q k) l2 + 1 :=
      List.countP_cons_of_pos _ _ hfx
    have h3 : List.countP (fun q => bucket.equal q k) (l1 ++ pair :: l2) =
        List.countP (fun q => bucket.equal q k) l1 +
          List.countP (fun q => bucket.equal q k) (pair :: l2) :=
      List.countP_append _ _ _
    have hcnt := huniq bucket hget
    rw [hsplit] at hcnt
    omega
  have hLc1 : L.count_elements = 1 := by
    have hLc : L.count_elements = (L.elements.length : Int) := by
      rw [hLpv]
      exact hpcount
    rw [hLc, hsole]
    rfl
  have hz : L.count_elements - 1 = 0 := by omega
  have hfx2 : bucket.equal
      ({ pair with
        value :=
          { L with
            elements := ([] : List ν),
            count_elements := 0 } } :
        KeyValuePair_s κ (LinkedList_s ν ν)) k = true := by
    rw [hbeq] at hfx ⊢
    exact hfx
  have hrepl : replaceFirstValue bucket.equal k
      ({ L with
        elements := ([] : List ν),
        count_elements := 0 }) bucket.elements =
      l1 ++
        ({ pair with
          value :=
            { L with
              elements := ([] : List ν),
              count_elements := 0 } } :
          KeyValuePair_s κ (LinkedList_s ν ν)) :: l2 := by
    rw [hsplit]
    exact replaceFirstValue_first_match bucket.equal k _ l1 pair l2 hl1f hfx
  have hrm2 : removeFirstBy bucket.equal k
      (l1 ++
        ({ pair with
          value :=
            { L with
              elements := ([] : List ν),
              count_elements := 0 } } :
          KeyValuePair_s κ (LinkedList_s ν ν)) :: l2) = some (l1 ++ l2) :=
    removeFirstBy_first_match bucket.equal k l1 _ l2 hl1f hfx2
  have heqn : removeFromMultiValueHashTable (some mt) (some k) (some v) =
      (status.success, some
        { mt with
          HashTable :=
            { mt.HashTable with
              table := mt.HashTable.table.set (hashIndex mt.HashTable k).toNat
                ({ bucket with
                  elements := l1 ++ l2,
                  count_elements := bucket.count_elements - 1 }) } }) := by
    simp [removeFromMultiValueHashTable, hlk, hsv, deleteNode, hrm,
      updateAliasedValue, hge, hget', hrepl, getLengthList, hz,
      removeFromHashTable, hashIndex_table_set, hltn, hrm2, List.set_set,
      List.getElem?_set_eq_of_lt]
  have hfind2 : (l1 ++ l2).find? (fun x => bucket.equal x k) = none := by
    rw [List.find?_eq_none]
    intro x hx
    rcases List.mem_append.mp hx with h | h
    · simp [hl1f x h]
    · simp [hl2f x h]
  have hlook2 : lookupInHashTable
      (some ({ mt.HashTable with
        table := mt.HashTable.table.set (hashIndex mt.HashTable k).toNat
          ({ bucket with
            elements := l1 ++ l2,
            count_elements := bucket.count_elements - 1 }) })) (some k) = none := by
    simp [lookupInHashTable, hashIndex_table_set, hge, hltn,
      List.getElem?_set_eq_of_lt, searchByKeyInList, hfind2]
  refine ⟨_, heqn, ?_⟩
  simpa [lookupInMultiValueHashTable] using hlook2

/-- C3: starting from a freshly created multi-value hash table, the
multi-value invariant holds and is preserved by every finite sequence of
`addToMultiValueHashTable` / `removeFromMultiValueHashTable` operations,
so for every key `k`, `lookupInMultiValueHashTable k` is either `none`
or a handle to a non-empty value list; and removing the sole remaining
value for a key (when the key occurs at most once in its bucket, as the
duplicate check of `addToHashTable` guarantees for reachable tables)
succeeds and evicts the key from the underlying hash table, so the
lookup then returns `none`. -/
theorem C3_theorem {κ ν : Type} :
    (∀ (ck : CopyFunction κ) (fk : FreeFunction κ) (pk : PrintFunction κ)
        (cv : CopyFunction ν) (fv : FreeFunction ν) (pv : PrintFunction ν)
        (ek : EqualFunction κ κ) (ev : EqualFunction ν ν)
        (tn : TransformIntoNumberFunction κ) (n : Int) (mt : MultiHashTable_s κ ν),
      createMultiValueHashTable (some ck) (some fk) (some pk) (some cv) (some fv)
          (some pv) (some ek) (some ev) (some tn) n (fun _ => true) = some mt →
      MultiTableInv mt.HashTable) ∧
    (∀ (mt : MultiHashTable_s κ ν), MultiTableInv mt.HashTable →
      ∀ (ops : List (MultiOp κ ν)) (k : κ),
        lookupInMultiValueHashTable (some (runMultiOps mt ops)) (some k) = none ∨
          ∃ L, lookupInMultiValueHashTable (some (runMultiOps mt ops)) (some k) = some L ∧
            L.elements ≠ []) ∧
    (∀ (mt : MultiHashTable_s κ ν) (k : κ) (v : ν) (L : LinkedList_s ν ν),
      MultiTableInv mt.HashTable →
      lookupInMultiValueHashTable (some mt) (some k) = some L →
      L.elements.length = 1 →
      (∃ y, searchByKeyInList (some L) (some v) = some y) →
      (∀ bucket,
        mt.HashTable.table.get? (hashIndex mt.HashTable k).toNat = some bucket →
        bucket.elements.countP (fun q => bucket.equal q k) ≤ 1) →
      ∃ mt2, removeFromMultiValueHashTable (some mt) (some k) (some v) =
          (status.success, some mt2) ∧
        lookupInMultiValueHashTable (some mt2) (some k) = none) := by
  refine ⟨?_, ?_, ?_⟩
  · intro ck fk pk cv fv pv ek ev tn n mt hc
    exact MultiTableInv_create ck fk pk cv fv pv ek ev tn n mt hc
  · intro mt hinv ops k
    exact multiLookup_none_or_nonempty (runMultiOps mt ops) k (MultiTableInv_run ops mt hinv)
  · intro mt k v L hinv hlkm hsole hvy huniq
    exact remove_sole_evicts mt k v L hinv hlkm hsole hvy huniq

/-- Witness for C3 at concrete `Nat` instances: the single-bucket table
is created with the invariant; after adding and removing the value 7 for
key 1 the lookup of key 1 is `none` or non-empty; and removing the sole
value 7 right after adding it succeeds and makes the lookup `none`. -/
theorem C3_witness :
    MultiTableInv natMultiTable1.HashTable ∧
    (lookupInMultiValueHashTable
        (some (runMultiOps natMultiTable1 [MultiOp.add 1 7, MultiOp.remove 1 7]))
        (some 1) = none ∨
      ∃ L, lookupInMultiValueHashTable
          (some (runMultiOps natMultiTable1 [MultiOp.add 1 7, MultiOp.remove 1 7]))
          (some 1) = some L ∧ L.elements ≠ []) ∧
    (∃ mt2, removeFromMultiValueHashTable
          (some (applyMultiOp natMultiTable1 (MultiOp.add 1 7))) (some 1) (some 7) =
        (status.success, some mt2) ∧
      lookupInMultiValueHashTable (some mt2) (some 1) = none) := by
  obtain ⟨h1, h2, h3⟩ := @C3_theorem Nat Nat
  have hinv1 : MultiTableInv natMultiTable1.HashTable :=
    h1 natCopy natFree natPrint natCopy natFree natPrint natEqual natEqual natHash 1
      natMultiTable1 rfl
  refine ⟨hinv1, ?_, ?_⟩
  · exact h2 natMultiTable1 hinv1 [MultiOp.add 1 7, MultiOp.remove 1 7] 1
  · exact h3 (applyMultiOp natMultiTable1 (MultiOp.add 1 7)) 1 7
      ({ copyElement := natCopy, freeElement := natFree, printElement := natPrint,
         equal := natEqual, elements := [7], count_elements := 1 })
      (MultiTableInv_applyOp natMultiTable1 (MultiOp.add 1 7) hinv1)
      rfl rfl ⟨7, rfl⟩
      (by
        intro bucket hb
        injection hb with hb
        subst hb
        decide)
